import Mathlib

/-!
Shallow embedding of the adaptive clip encoder of `asbplayer`
(`src/common/src/image.ts`, `src/common/src/gif-encoder-worker.ts`,
`src/common/src/gif-encoder-message.ts`), together with theorems settling
the frozen claims about it.

JavaScript numbers are modelled as rationals (`ℚ`), with explicit handling
of the non-finite cases (`NaN`, `±Infinity`) where the source tests
`Number.isFinite`.  Byte buffers (`Uint8Array`/`ArrayBuffer`) are modelled
as `List ℕ`.  Asynchronous completion order is modelled as an explicit
choice sequence fed to a step function.
-/

namespace Asb

/-- `clamp` from `src/common/src/image.ts`:
`(value, min, max) => Math.max(min, Math.min(max, value))`, on rationals. -/
def clamp (value lo hi : ℚ) : ℚ := Max.max lo (Min.min hi value)

/-- The same `clamp` specialised to integer arguments (as used on values that
have already been rounded with `Math.round`). -/
def clampI (value lo hi : ℤ) : ℤ := Max.max lo (Min.min hi value)

/-- JavaScript `Math.round`: `⌊x + 1/2⌋` (half-up, also for negative inputs). -/
def jsRound (q : ℚ) : ℤ := ⌊q + 1/2⌋

/-- A JavaScript `number` as it matters to the encoder: either a finite
value (modelled exactly as a rational) or a non-finite one
(`NaN`, `Infinity`, `-Infinity`), which `Number.isFinite` rejects. -/
inductive JsNum where
  | fin (q : ℚ)
  | nonFinite
deriving DecidableEq

namespace GIF_OPTION_LIMITS

/-- `GIF_OPTION_LIMITS.minDurationMs` -/
def minDurationMs : ℤ := 300

/-- `GIF_OPTION_LIMITS.maxDurationMs` -/
def maxDurationMs : ℤ := 2500

/-- `GIF_OPTION_LIMITS.maxDurationCapMs` -/
def maxDurationCapMs : ℤ := 60000

/-- `GIF_OPTION_LIMITS.minFps` -/
def minFps : ℤ := 1

/-- `GIF_OPTION_LIMITS.maxFps` -/
def maxFps : ℤ := 60

/-- `GIF_OPTION_LIMITS.minFrames` -/
def minFrames : ℤ := 1

/-- `GIF_OPTION_LIMITS.maxFrames` -/
def maxFrames : ℤ := 300

/-- `GIF_OPTION_LIMITS.minTrimMs` -/
def minTrimMs : ℤ := 0

/-- `GIF_OPTION_LIMITS.maxTrimMs` -/
def maxTrimMs : ℤ := 3000

end GIF_OPTION_LIMITS

/-- The normalized `GifOptions` record of `src/common/src/image.ts`.  After
`normalizeGifOptions` every numeric field is an integer (rounded and
clamped), so the fields are modelled as `ℤ`. -/
structure GifOptions where
  maxDurationMs : ℤ
  detectMotion : Bool
  createJpegIfMotionIsLow : Bool
  fps : ℤ
  maxFrames : ℤ
  startTrimMs : ℤ
  endTrimMs : ℤ
deriving DecidableEq

/-- `DEFAULT_GIF_OPTIONS` from `src/common/src/image.ts`. -/
def DEFAULT_GIF_OPTIONS : GifOptions :=
  { maxDurationMs := GIF_OPTION_LIMITS.maxDurationMs
    detectMotion := true
    createJpegIfMotionIsLow := true
    fps := 12
    maxFrames := 24
    startTrimMs := 100
    endTrimMs := 0 }

/-- A caller-supplied `Partial<GifOptions>`: every field may be absent
(`none`), and numeric fields may additionally hold a non-finite number. -/
structure RawGifOptions where
  maxDurationMs : Option JsNum := none
  detectMotion : Option Bool := none
  createJpegIfMotionIsLow : Option Bool := none
  fps : Option JsNum := none
  maxFrames : Option JsNum := none
  startTrimMs : Option JsNum := none
  endTrimMs : Option JsNum := none

/-- `normalizeRoundedNumber` from `src/common/src/image.ts`: a present,
finite number is rounded, anything else is replaced by the fallback; the
result is clamped to `[lo, hi]`. -/
def normalizeRoundedNumber (value : Option JsNum) (fallback lo hi : ℤ) : ℤ :=
  let resolvedValue : ℤ :=
    match value with
    | some (JsNum.fin q) => jsRound q
    | _ => fallback
  clampI resolvedValue lo hi

/-- `normalizeBoolean` from `src/common/src/image.ts`. -/
def normalizeBoolean (value : Option Bool) (fallback : Bool) : Bool :=
  value.getD fallback

/-- `normalizeGifOptions` from `src/common/src/image.ts`. -/
def normalizeGifOptions (gifOptions : RawGifOptions) : GifOptions :=
  { maxDurationMs :=
      normalizeRoundedNumber gifOptions.maxDurationMs DEFAULT_GIF_OPTIONS.maxDurationMs
        GIF_OPTION_LIMITS.minDurationMs GIF_OPTION_LIMITS.maxDurationCapMs
    detectMotion := normalizeBoolean gifOptions.detectMotion DEFAULT_GIF_OPTIONS.detectMotion
    createJpegIfMotionIsLow :=
      normalizeBoolean gifOptions.createJpegIfMotionIsLow DEFAULT_GIF_OPTIONS.createJpegIfMotionIsLow
    fps :=
      normalizeRoundedNumber gifOptions.fps DEFAULT_GIF_OPTIONS.fps
        GIF_OPTION_LIMITS.minFps GIF_OPTION_LIMITS.maxFps
    maxFrames :=
      normalizeRoundedNumber gifOptions.maxFrames DEFAULT_GIF_OPTIONS.maxFrames
        GIF_OPTION_LIMITS.minFrames GIF_OPTION_LIMITS.maxFrames
    startTrimMs :=
      normalizeRoundedNumber gifOptions.startTrimMs DEFAULT_GIF_OPTIONS.startTrimMs
        GIF_OPTION_LIMITS.minTrimMs GIF_OPTION_LIMITS.maxTrimMs
    endTrimMs :=
      normalizeRoundedNumber gifOptions.endTrimMs DEFAULT_GIF_OPTIONS.endTrimMs
        GIF_OPTION_LIMITS.minTrimMs GIF_OPTION_LIMITS.maxTrimMs }

/-- `GIF_APPLY_PALETTE_POOL_MIN_FRAMES` -/
def GIF_APPLY_PALETTE_POOL_MIN_FRAMES : ℕ := 12

/-- `GIF_APPLY_PALETTE_POOL_MIN_WORKERS` -/
def GIF_APPLY_PALETTE_POOL_MIN_WORKERS : ℤ := 2

/-- `GIF_APPLY_PALETTE_POOL_MAX_WORKERS` -/
def GIF_APPLY_PALETTE_POOL_MAX_WORKERS : ℤ := 4

/-- `_applyPaletteWorkerCount` from `src/common/src/image.ts`.
`hardwareConcurrency` is `some` of `Math.floor(navigator.hardwareConcurrency)`
when `navigator` exists and the value is finite, `none` otherwise. -/
def _applyPaletteWorkerCount (frameCount : ℕ) (hardwareConcurrency : Option ℤ) : ℤ :=
  if frameCount < GIF_APPLY_PALETTE_POOL_MIN_FRAMES then 1
  else
    let hc : ℤ := hardwareConcurrency.getD 2
    let maxWorkersFromHardware : ℤ := Max.max 1 (hc - 1)
    let workerCount : ℤ :=
      Min.min GIF_APPLY_PALETTE_POOL_MAX_WORKERS (Min.min maxWorkersFromHardware (frameCount : ℤ))
    if GIF_APPLY_PALETTE_POOL_MIN_WORKERS ≤ workerCount then workerCount else 1

lemma clampI_mem (value lo hi : ℤ) (h : lo ≤ hi) :
    lo ≤ clampI value lo hi ∧ clampI value lo hi ≤ hi := by
  unfold clampI
  omega

lemma clampI_of_mem (value lo hi : ℤ) (h1 : lo ≤ value) (h2 : value ≤ hi) :
    clampI value lo hi = value := by
  unfold clampI
  omega

lemma normalizeRoundedNumber_mem (value : Option JsNum) (fallback lo hi : ℤ) (h : lo ≤ hi) :
    lo ≤ normalizeRoundedNumber value fallback lo hi ∧
      normalizeRoundedNumber value fallback lo hi ≤ hi := by
  unfold normalizeRoundedNumber
  exact clampI_mem _ lo hi h

lemma normalizeRoundedNumber_default (value : Option JsNum) (fallback lo hi : ℤ)
    (hv : value = none ∨ value = some JsNum.nonFinite)
    (hlo : lo ≤ fallback) (hhi : fallback ≤ hi) :
    normalizeRoundedNumber value fallback lo hi = fallback := by
  rcases hv with hv | hv <;>
    · rw [hv]
      simp only [normalizeRoundedNumber]
      exact clampI_of_mem _ _ _ hlo hhi

/-- C8: every numeric field of `normalizeGifOptions`' result lies within its
documented clamp range (`fps ∈ [1,60]`, `maxFrames ∈ [1,300]`,
trims ∈ `[0,3000]`, `maxDurationMs ∈ [300, 60000]`) for every input,
including absent, non-finite, negative and out-of-range field values; a
numeric field that is absent or non-finite is replaced by its documented
default (which the clamp then leaves unchanged). -/
theorem normalizeGifOptions_fields_clamped (g : RawGifOptions) :
    (GIF_OPTION_LIMITS.minDurationMs ≤ (normalizeGifOptions g).maxDurationMs ∧
      (normalizeGifOptions g).maxDurationMs ≤ GIF_OPTION_LIMITS.maxDurationCapMs) ∧
    (GIF_OPTION_LIMITS.minFps ≤ (normalizeGifOptions g).fps ∧
      (normalizeGifOptions g).fps ≤ GIF_OPTION_LIMITS.maxFps) ∧
    (GIF_OPTION_LIMITS.minFrames ≤ (normalizeGifOptions g).maxFrames ∧
      (normalizeGifOptions g).maxFrames ≤ GIF_OPTION_LIMITS.maxFrames) ∧
    (GIF_OPTION_LIMITS.minTrimMs ≤ (normalizeGifOptions g).startTrimMs ∧
      (normalizeGifOptions g).startTrimMs ≤ GIF_OPTION_LIMITS.maxTrimMs) ∧
    (GIF_OPTION_LIMITS.minTrimMs ≤ (normalizeGifOptions g).endTrimMs ∧
      (normalizeGifOptions g).endTrimMs ≤ GIF_OPTION_LIMITS.maxTrimMs) ∧
    ((g.maxDurationMs = none ∨ g.maxDurationMs = some JsNum.nonFinite) →
      (normalizeGifOptions g).maxDurationMs = DEFAULT_GIF_OPTIONS.maxDurationMs) ∧
    ((g.fps = none ∨ g.fps = some JsNum.nonFinite) →
      (normalizeGifOptions g).fps = DEFAULT_GIF_OPTIONS.fps) ∧
    ((g.maxFrames = none ∨ g.maxFrames = some JsNum.nonFinite) →
      (normalizeGifOptions g).maxFrames = DEFAULT_GIF_OPTIONS.maxFrames) ∧
    ((g.startTrimMs = none ∨ g.startTrimMs = some JsNum.nonFinite) →
      (normalizeGifOptions g).startTrimMs = DEFAULT_GIF_OPTIONS.startTrimMs) ∧
    ((g.endTrimMs = none ∨ g.endTrimMs = some JsNum.nonFinite) →
      (normalizeGifOptions g).endTrimMs = DEFAULT_GIF_OPTIONS.endTrimMs) := by
  refine ⟨?_, ?_, ?_, ?_, ?_, ?_, ?_, ?_, ?_, ?_⟩
  · exact normalizeRoundedNumber_mem _ _ _ _ (by decide)
  · exact normalizeRoundedNumber_mem _ _ _ _ (by decide)
  · exact normalizeRoundedNumber_mem _ _ _ _ (by decide)
  · exact normalizeRoundedNumber_mem _ _ _ _ (by decide)
  · exact normalizeRoundedNumber_mem _ _ _ _ (by decide)
  · exact fun hv => normalizeRoundedNumber_default _ _ _ _ hv (by decide) (by decide)
  · exact fun hv => normalizeRoundedNumber_default _ _ _ _ hv (by decide) (by decide)
  · exact fun hv => normalizeRoundedNumber_default _ _ _ _ hv (by decide) (by decide)
  · exact fun hv => normalizeRoundedNumber_default _ _ _ _ hv (by decide) (by decide)
  · exact fun hv => normalizeRoundedNumber_default _ _ _ _ hv (by decide) (by decide)

/-- C8 witness: the theorem evaluated at a concrete adversarial input
(`fps = NaN`, `maxFrames = -5`, `startTrimMs = 10^9`, absent trims). -/
theorem normalizeGifOptions_fields_clamped_witness :
    (normalizeGifOptions
        { fps := some JsNum.nonFinite, maxFrames := some (JsNum.fin (-5)),
          startTrimMs := some (JsNum.fin 1000000000) }).fps = 12 ∧
    (normalizeGifOptions
        { fps := some JsNum.nonFinite, maxFrames := some (JsNum.fin (-5)),
          startTrimMs := some (JsNum.fin 1000000000) }).maxFrames = 1 ∧
    (normalizeGifOptions
        { fps := some JsNum.nonFinite, maxFrames := some (JsNum.fin (-5)),
          startTrimMs := some (JsNum.fin 1000000000) }).startTrimMs ≤ 3000 := by
  have h := normalizeGifOptions_fields_clamped
    { fps := some JsNum.nonFinite, maxFrames := some (JsNum.fin (-5)),
      startTrimMs := some (JsNum.fin 1000000000) }
  refine ⟨h.2.2.2.2.2.2.1 (Or.inr rfl), ?_, h.2.2.2.1.2⟩
  have hround : jsRound (-5 : ℚ) = -5 := by
    rw [jsRound]
    norm_num
  simp only [normalizeGifOptions, normalizeRoundedNumber, hround]
  decide

/-- C9 counterexample: with 12 frames (at the pool threshold) and
`hardwareConcurrency = 2`, the code returns a single worker, while the claim
demands `clamp(2, 4, hardwareConcurrency - 1) = 2`. -/
theorem applyPaletteWorkerCount_not_clamp :
    _applyPaletteWorkerCount 12 (some 2) = 1 ∧
      clampI (2 - 1) GIF_APPLY_PALETTE_POOL_MIN_WORKERS GIF_APPLY_PALETTE_POOL_MAX_WORKERS = 2 ∧
      _applyPaletteWorkerCount 12 (some 2) ≠
        clampI (2 - 1) GIF_APPLY_PALETTE_POOL_MIN_WORKERS GIF_APPLY_PALETTE_POOL_MAX_WORKERS := by
  decide

/-- C9 (amended): below 12 frames exactly one worker is used.  At 12 frames
or more, the pool size equals `clamp(2, 4, hardwareConcurrency - 1)` only
when `hardwareConcurrency ≥ 3`; when `hardwareConcurrency ≤ 2` (or `navigator`
is unavailable or `hardwareConcurrency` is not finite, both of which fall
back to 2) the computed pool size falls below the 2-worker minimum and a
single worker is used instead. -/
theorem applyPaletteWorkerCount_spec (frameCount : ℕ) (hc : ℤ) :
    (frameCount < 12 → ∀ h : Option ℤ, _applyPaletteWorkerCount frameCount h = 1) ∧
    (12 ≤ frameCount → 3 ≤ hc →
      _applyPaletteWorkerCount frameCount (some hc) =
        clampI (hc - 1) GIF_APPLY_PALETTE_POOL_MIN_WORKERS GIF_APPLY_PALETTE_POOL_MAX_WORKERS) ∧
    (12 ≤ frameCount → hc ≤ 2 → _applyPaletteWorkerCount frameCount (some hc) = 1) ∧
    (12 ≤ frameCount → _applyPaletteWorkerCount frameCount none = 1) := by
  refine ⟨?_, ?_, ?_, ?_⟩
  · intro hlt h
    simp only [_applyPaletteWorkerCount, GIF_APPLY_PALETTE_POOL_MIN_FRAMES]
    rw [if_pos hlt]
  · intro hge hhc
    have hfc : (12 : ℤ) ≤ (frameCount : ℤ) := by exact_mod_cast hge
    simp only [_applyPaletteWorkerCount, GIF_APPLY_PALETTE_POOL_MIN_FRAMES,
      Option.getD_some, GIF_APPLY_PALETTE_POOL_MAX_WORKERS,
      GIF_APPLY_PALETTE_POOL_MIN_WORKERS, clampI]
    rw [if_neg (by omega)]
    split <;> omega
  · intro hge hhc
    have hfc : (12 : ℤ) ≤ (frameCount : ℤ) := by exact_mod_cast hge
    simp only [_applyPaletteWorkerCount, GIF_APPLY_PALETTE_POOL_MIN_FRAMES,
      Option.getD_some, GIF_APPLY_PALETTE_POOL_MAX_WORKERS,
      GIF_APPLY_PALETTE_POOL_MIN_WORKERS]
    rw [if_neg (by omega)]
    split <;> omega
  · intro hge
    have hfc : (12 : ℤ) ≤ (frameCount : ℤ) := by exact_mod_cast hge
    simp only [_applyPaletteWorkerCount, GIF_APPLY_PALETTE_POOL_MIN_FRAMES,
      Option.getD_none, GIF_APPLY_PALETTE_POOL_MAX_WORKERS,
      GIF_APPLY_PALETTE_POOL_MIN_WORKERS]
    rw [if_neg (by omega)]
    split <;> omega

/-! ## Frame timestamp planner (`_frameTimestamps`, `src/common/src/image.ts`) -/

/-- The inputs read by `GifFileImageData._frameTimestamps`:
`this._startTimestamp`, `this._durationMs`, `this._gifOptions.fps`,
`this._gifOptions.maxFrames` and the `videoDurationSeconds` argument
(`none` when `video.duration` is not finite). -/
structure FrameTimestampsInput where
  startTimestamp : ℚ
  durationMs : ℚ
  fps : ℚ
  maxFrames : ℤ
  videoDurationSeconds : Option JsNum

/-- `maxVideoDurationMs` inside `_frameTimestamps`. -/
def _maxVideoDurationMs (inp : FrameTimestampsInput) : ℚ :=
  match inp.videoDurationSeconds with
  | some (JsNum.fin d) => Max.max 0 (d * 1000)
  | _ => inp.startTimestamp + inp.durationMs

/-- `start` inside `_frameTimestamps`. -/
def _plannedStart (inp : FrameTimestampsInput) : ℚ :=
  clamp inp.startTimestamp 0 (_maxVideoDurationMs inp)

/-- `end` inside `_frameTimestamps`. -/
def _plannedEnd (inp : FrameTimestampsInput) : ℚ :=
  clamp (_plannedStart inp + inp.durationMs) (_plannedStart inp) (_maxVideoDurationMs inp)

/-- `durationMs` inside `_frameTimestamps` (interval already clamped to the
source's decodable range). -/
def _plannedDurationMs (inp : FrameTimestampsInput) : ℚ :=
  Max.max 0 (_plannedEnd inp - _plannedStart inp)

/-- `frameCount` inside `_frameTimestamps`:
`Math.max(1, Math.min(maxFrames, Math.floor((durationMs / 1000) * fps) + 1))`. -/
def _frameCount (inp : FrameTimestampsInput) : ℕ :=
  (Max.max 1 (Min.min inp.maxFrames (⌊_plannedDurationMs inp / 1000 * inp.fps⌋ + 1))).toNat

/-- `GifFileImageData._frameTimestamps` from `src/common/src/image.ts`. -/
def _frameTimestamps (inp : FrameTimestampsInput) : List ℚ :=
  if _frameCount inp = 1 then [_plannedStart inp]
  else
    let step := _plannedDurationMs inp / ((_frameCount inp : ℚ) - 1)
    (List.range (_frameCount inp)).map (fun i : ℕ => _plannedStart inp + step * (i : ℚ))

lemma _frameCount_pos (inp : FrameTimestampsInput) : 1 ≤ _frameCount inp := by
  unfold _frameCount
  omega

lemma _frameTimestamps_length (inp : FrameTimestampsInput) :
    (_frameTimestamps inp).length = _frameCount inp := by
  unfold _frameTimestamps
  split
  · simp [*]
  · simp

lemma _plannedDurationMs_nonneg (inp : FrameTimestampsInput) :
    0 ≤ _plannedDurationMs inp := le_max_left _ _

lemma _plannedEnd_sub_start (inp : FrameTimestampsInput) :
    _plannedDurationMs inp = _plannedEnd inp - _plannedStart inp := by
  have h : _plannedStart inp ≤ _plannedEnd inp := le_max_left _ _
  unfold _plannedDurationMs
  rw [max_eq_right (by linarith)]

lemma _plannedStart_nonneg (inp : FrameTimestampsInput) : 0 ≤ _plannedStart inp :=
  le_max_left _ _

lemma _plannedEnd_le_max (inp : FrameTimestampsInput) (d : ℚ)
    (h : inp.videoDurationSeconds = some (JsNum.fin d)) :
    _plannedEnd inp ≤ Max.max 0 (d * 1000) := by
  have hmv : _maxVideoDurationMs inp = Max.max 0 (d * 1000) := by
    unfold _maxVideoDurationMs
    rw [h]
  have hstart : _plannedStart inp ≤ _maxVideoDurationMs inp := by
    unfold _plannedStart clamp
    rw [hmv]
    have h0 : (0 : ℚ) ≤ Max.max 0 (d * 1000) := le_max_left _ _
    rw [hmv] at *
    rcases le_total (Min.min (Max.max 0 (d * 1000)) inp.startTimestamp) 0 with hle | hle
    · rw [max_eq_left hle]; exact h0
    · rw [max_eq_right hle]; exact min_le_left _ _
  unfold _plannedEnd clamp
  rw [hmv] at *
  rcases le_total (Min.min (Max.max 0 (d * 1000)) (_plannedStart inp + inp.durationMs))
      (_plannedStart inp) with hle | hle
  · rw [max_eq_left hle]; exact hstart
  · rw [max_eq_right hle]; exact min_le_left _ _

/-- C2: for every clip start, clip duration, source duration, fps and
`maxFrames ≥ 1` (all normalized `GifOptions` satisfy this), the planner's
list (a) has length `clamp(1, maxFrames, floor(clampedDurationSeconds × fps) + 1)`
where the duration is the interval clamped to the source bounds, (b) is
monotonically non-decreasing, (c) never has more than `maxFrames` entries,
(d) stays within `[0, max(0, sourceDurationMs)]` whenever the source
duration is finite, and (e) equals `[clampedStart]` whenever it has exactly
one entry. -/
theorem frameTimestamps_spec (inp : FrameTimestampsInput) (hmax : 1 ≤ inp.maxFrames) :
    (_frameTimestamps inp).length =
        (clampI (⌊_plannedDurationMs inp / 1000 * inp.fps⌋ + 1) 1 inp.maxFrames).toNat ∧
      (_frameTimestamps inp).Pairwise (· ≤ ·) ∧
      ((_frameTimestamps inp).length : ℤ) ≤ inp.maxFrames ∧
      (∀ d : ℚ, inp.videoDurationSeconds = some (JsNum.fin d) →
        ∀ t ∈ _frameTimestamps inp, 0 ≤ t ∧ t ≤ Max.max 0 (d * 1000)) ∧
      ((_frameTimestamps inp).length = 1 → _frameTimestamps inp = [_plannedStart inp]) := by
  have hlen := _frameTimestamps_length inp
  have hcount := _frameCount_pos inp
  refine ⟨?_, ?_, ?_, ?_, ?_⟩
  · rw [hlen]
    unfold _frameCount clampI
    rfl
  · -- monotonicity: consecutive steps differ by `step ≥ 0`
    unfold _frameTimestamps
    split
    · exact List.pairwise_singleton _ _
    · rename_i hne
      have hstep : 0 ≤ _plannedDurationMs inp / ((_frameCount inp : ℚ) - 1) := by
        apply div_nonneg (_plannedDurationMs_nonneg inp)
        have : 2 ≤ _frameCount inp := by omega
        have h2 : (2 : ℚ) ≤ (_frameCount inp : ℚ) := by exact_mod_cast this
        linarith
      refine List.Pairwise.map _ ?_ (List.pairwise_lt_range _)
      intro a b hab
      have hab' : (a : ℚ) ≤ (b : ℚ) := by exact_mod_cast Nat.le_of_lt hab
      nlinarith [mul_le_mul_of_nonneg_left hab' hstep]
  · rw [hlen]
    unfold _frameCount
    omega
  · intro d hd t ht
    have hstart0 : 0 ≤ _plannedStart inp := _plannedStart_nonneg inp
    have hend := _plannedEnd_le_max inp d hd
    have hdur := _plannedEnd_sub_start inp
    unfold _frameTimestamps at ht
    split at ht
    · rename_i h1
      rcases List.mem_singleton.mp ht with rfl
      constructor
      · exact hstart0
      · calc _plannedStart inp ≤ _plannedEnd inp := by
              have := _plannedDurationMs_nonneg inp; linarith
          _ ≤ _ := hend
    · rename_i hne
      rcases List.mem_map.mp ht with ⟨i, hi, rfl⟩
      rcases List.mem_range.mp hi with hilt
      have h2 : 2 ≤ _frameCount inp := by omega
      have hn1 : (1 : ℚ) ≤ ((_frameCount inp : ℚ) - 1) := by
        have : (2 : ℚ) ≤ (_frameCount inp : ℚ) := by exact_mod_cast h2
        linarith
      have hstep : 0 ≤ _plannedDurationMs inp / ((_frameCount inp : ℚ) - 1) := by
        apply div_nonneg (_plannedDurationMs_nonneg inp)
        linarith
      have hi' : (i : ℚ) ≤ (_frameCount inp : ℚ) - 1 := by
        have : (i : ℚ) + 1 ≤ (_frameCount inp : ℚ) := by exact_mod_cast hilt
        linarith
      constructor
      · have : 0 ≤ _plannedDurationMs inp / ((_frameCount inp : ℚ) - 1) * (i : ℚ) :=
          mul_nonneg hstep (by positivity)
        linarith
      · have hle : _plannedDurationMs inp / ((_frameCount inp : ℚ) - 1) * (i : ℚ) ≤
            _plannedDurationMs inp / ((_frameCount inp : ℚ) - 1) * ((_frameCount inp : ℚ) - 1) :=
          mul_le_mul_of_nonneg_left hi' hstep
        have heq : _plannedDurationMs inp / ((_frameCount inp : ℚ) - 1) *
            ((_frameCount inp : ℚ) - 1) = _plannedDurationMs inp := by
          field_simp
        rw [heq] at hle
        calc _plannedStart inp + _plannedDurationMs inp / ((_frameCount inp : ℚ) - 1) * (i : ℚ)
            ≤ _plannedStart inp + _plannedDurationMs inp := by linarith
          _ = _plannedEnd inp := by linarith [_plannedEnd_sub_start inp]
          _ ≤ _ := hend
  · intro hone
    unfold _frameTimestamps
    rw [hlen] at hone
    rw [if_pos hone]

/-- C2 witness: a 1000 ms clip starting at 200 ms of a 10 s source with
`fps = 12`, `maxFrames = 24` yields 13 evenly spaced timestamps from 200. -/
theorem frameTimestamps_spec_witness :
    (1 : ℤ) ≤ 24 ∧
      (_frameTimestamps
          { startTimestamp := 200, durationMs := 1000, fps := 12, maxFrames := 24,
            videoDurationSeconds := some (JsNum.fin 10) }).Pairwise (· ≤ ·) ∧
      ((_frameTimestamps
          { startTimestamp := 200, durationMs := 1000, fps := 12, maxFrames := 24,
            videoDurationSeconds := some (JsNum.fin 10) }).length : ℤ) ≤ 24 := by
  have h := frameTimestamps_spec
    { startTimestamp := 200, durationMs := 1000, fps := 12, maxFrames := 24,
      videoDurationSeconds := some (JsNum.fin 10) } (by decide)
  exact ⟨by decide, h.2.1, h.2.2.1⟩

/-! ## Motion analyzer (`motionScore` and friends, `src/common/src/image.ts`) -/

/-- `MIN_GIF_FRAME_DELAY_MS` -/
def MIN_GIF_FRAME_DELAY_MS : ℚ := 20

/-- `GIF_MOTION_SCORE_JPEG_CUTOFF` -/
def GIF_MOTION_SCORE_JPEG_CUTOFF : ℚ := 50

/-- `GIF_MOTION_SCORE_MAX_FPS` -/
def GIF_MOTION_SCORE_MAX_FPS : ℚ := 200

/-- `GIF_MOTION_NEW_DRAWING_THRESHOLD` -/
def GIF_MOTION_NEW_DRAWING_THRESHOLD : ℚ := 4

/-- `GIF_MOTION_EARLY_JPEG_MAX_SCORE` -/
def GIF_MOTION_EARLY_JPEG_MAX_SCORE : ℚ := 8

/-- `GIF_MOTION_PROBE_FRAME_COUNT` -/
def GIF_MOTION_PROBE_FRAME_COUNT : ℕ := 5

/-- `GIF_MOTION_SLOW_SCENE_MIN_DELAY_MS` -/
def GIF_MOTION_SLOW_SCENE_MIN_DELAY_MS : ℚ := 100

/-- `GIF_MOTION_SAMPLE_STRIDE` -/
def GIF_MOTION_SAMPLE_STRIDE : ℕ := 4

/-- `GIF_MOTION_COLLECTION_BUDGET_MULTIPLIER` (0.9) -/
def GIF_MOTION_COLLECTION_BUDGET_MULTIPLIER : ℚ := 9 / 10

/-- `GIF_MOTION_COLLECTION_BUDGET_PADDING_MS` -/
def GIF_MOTION_COLLECTION_BUDGET_PADDING_MS : ℚ := 500

/-- `GIF_MOTION_COLLECTION_BUDGET_MIN_MS` -/
def GIF_MOTION_COLLECTION_BUDGET_MIN_MS : ℚ := 1200

/-- Absolute difference of two byte values (`Math.abs(a - b)`). -/
def byteAbsDiff (a b : ℕ) : ℕ := ((a : ℤ) - (b : ℤ)).natAbs

/-- The sampling loop of `motionScore`: starting at byte offset `i`,
as long as `i + 2 < maxLength`, accumulate the three channel differences at
`i`, `i+1`, `i+2` and step forward by `Math.max(1, sampleStride) * 4`
bytes.  Returns `(diff, sampledPixelCount)`. -/
def _motionScoreLoop (previous current : List ℕ) (sampleStride maxLength i : ℕ) : ℕ × ℕ :=
  if _hlt : i + 2 < maxLength then
    let d := byteAbsDiff (previous.getD i 0) (current.getD i 0) +
      byteAbsDiff (previous.getD (i + 1) 0) (current.getD (i + 1) 0) +
      byteAbsDiff (previous.getD (i + 2) 0) (current.getD (i + 2) 0)
    let rest := _motionScoreLoop previous current sampleStride maxLength
      (i + Max.max 1 sampleStride * 4)
    (d + rest.1, rest.2 + 1)
  else (0, 0)
termination_by maxLength - i
decreasing_by
  have h1 : 1 ≤ Max.max 1 sampleStride := le_max_left _ _
  omega

/-- `motionScore` from `src/common/src/image.ts`: summed per-channel
absolute differences at a fixed pixel stride, divided by the number of
sampled pixels (0 when nothing was sampled). -/
def motionScore (previous current : List ℕ) (sampleStride : ℕ) : ℚ :=
  let maxLength := Min.min previous.length current.length
  let r := _motionScoreLoop previous current sampleStride maxLength 0
  if r.2 = 0 then 0 else (r.1 : ℚ) / (r.2 : ℚ)

lemma _motionScoreLoop_self (p : List ℕ) (s L : ℕ) :
    ∀ n i, L - i ≤ n → (_motionScoreLoop p p s L i).1 = 0 := by
  intro n
  induction n with
  | zero =>
    intro i hle
    rw [_motionScoreLoop]
    split
    · omega
    · rfl
  | succ n ih =>
    intro i hle
    rw [_motionScoreLoop]
    split
    · rename_i hlt
      have hd : byteAbsDiff (p.getD i 0) (p.getD i 0) = 0 := by
        simp [byteAbsDiff]
      have hd1 : byteAbsDiff (p.getD (i + 1) 0) (p.getD (i + 1) 0) = 0 := by
        simp [byteAbsDiff]
      have hd2 : byteAbsDiff (p.getD (i + 2) 0) (p.getD (i + 2) 0) = 0 := by
        simp [byteAbsDiff]
      have hstep : 1 ≤ Max.max 1 s := le_max_left _ _
      have hrec := ih (i + Max.max 1 s * 4) (by omega)
      simp only [hd, hd1, hd2, hrec]
    · rfl

/-- C3 (first half): the motion score of a frame against itself is exactly
0, for every frame buffer and every sample stride. -/
lemma motionScore_self (frame : List ℕ) (sampleStride : ℕ) :
    motionScore frame frame sampleStride = 0 := by
  unfold motionScore
  have h := _motionScoreLoop_self frame sampleStride
    (Min.min frame.length frame.length)
    (Min.min frame.length frame.length) 0 (by omega)
  dsimp only
  split
  · rfl
  · rw [h]
    simp

/-! ## Frame collection (`_collectFrames`, `src/common/src/image.ts`)

The capture side (`_captureFrameBuffer`: seek the video, draw to the
canvas, read pixels back) is I/O against the browser; it is abstracted as
a pure function `capture : ℕ → List ℕ` from planned-frame index to the
RGBA bytes captured for `frameTimestamps[i]` (the per-index
`preCapturedFrames` cache stores exactly these values, so cache hits and
fresh captures agree).  Wall-clock readings `now() - collectionStartedAtMs`
taken at the budget check of loop iteration `i` are abstracted as an
oracle `elapsedAtCheck : ℕ → ℚ`. -/

/-- `evenlySpacedIndexes` from `src/common/src/image.ts`. -/
def evenlySpacedIndexes (frameCount targetFrameCount : ℕ) : List ℕ :=
  let safeFrameCount := Max.max 1 frameCount
  let safeTargetFrameCount := Max.max 1 (Min.min targetFrameCount safeFrameCount)
  if safeTargetFrameCount = safeFrameCount then List.range safeFrameCount
  else if safeTargetFrameCount = 1 then [safeFrameCount - 1]
  else
    let indexes := (List.range safeTargetFrameCount).foldl
      (fun acc i =>
        let index := (jsRound ((i : ℚ) * ((safeFrameCount : ℚ) - 1) /
          ((safeTargetFrameCount : ℚ) - 1))).toNat
        if acc.getLast? = some index then acc else acc ++ [index])
      []
    let indexes2 := if indexes.head? ≠ some 0 then 0 :: indexes else indexes
    if indexes2.getLast? ≠ some (safeFrameCount - 1) then indexes2 ++ [safeFrameCount - 1]
    else indexes2

/-- `requiredDelayMsForMotionScore` from `src/common/src/image.ts`. -/
def requiredDelayMsForMotionScore (score baseFrameDelayMs : ℚ) : ℚ :=
  let fastDelayMs := Max.max MIN_GIF_FRAME_DELAY_MS ((jsRound baseFrameDelayMs : ℤ) : ℚ)
  let slowDelayMs := Max.max fastDelayMs GIF_MOTION_SLOW_SCENE_MIN_DELAY_MS
  if GIF_MOTION_SCORE_MAX_FPS ≤ score then fastDelayMs
  else if score ≤ GIF_MOTION_SCORE_JPEG_CUTOFF then slowDelayMs
  else
    let t := (score - GIF_MOTION_SCORE_JPEG_CUTOFF) /
      (GIF_MOTION_SCORE_MAX_FPS - GIF_MOTION_SCORE_JPEG_CUTOFF)
    Max.max MIN_GIF_FRAME_DELAY_MS
      ((jsRound (slowDelayMs - t * (slowDelayMs - fastDelayMs)) : ℤ) : ℚ)

/-- `defaultCollectionBudgetMs` inside `_collectFrames`. -/
def _defaultCollectionBudgetMs (durationMs : ℚ) : ℚ :=
  Max.max GIF_MOTION_COLLECTION_BUDGET_MIN_MS
    ((jsRound (durationMs * GIF_MOTION_COLLECTION_BUDGET_MULTIPLIER +
        GIF_MOTION_COLLECTION_BUDGET_PADDING_MS) : ℤ) : ℚ)

/-- `collectionBudgetMs` inside `_collectFrames` (caller override clamped
between the fixed minimum and the default). -/
def _collectionBudgetMs (durationMs : ℚ) (overrideMs : Option ℚ) : ℚ :=
  match overrideMs with
  | none => _defaultCollectionBudgetMs durationMs
  | some o =>
      Max.max GIF_MOTION_COLLECTION_BUDGET_MIN_MS
        (Min.min (_defaultCollectionBudgetMs durationMs) o)

/-- The inputs of one `_collectFrames` run. -/
structure CollectFramesInput where
  frameTimestamps : List ℚ
  baseFrameDelayMs : ℚ
  durationMs : ℚ
  detectMotion : Bool
  createJpegIfMotionIsLow : Bool
  capture : ℕ → List ℕ
  elapsedAtCheck : ℕ → ℚ
  motionCollectionBudgetOverrideMs : Option ℚ

/-- The `CollectedGifFrames` record of `src/common/src/image.ts` (the
timing diagnostic `motionScoreMs` is real time and is omitted). -/
structure CollectedGifFrames where
  frameBuffers : List (List ℕ)
  frameDelayMs : List ℚ
  motionScore : Option ℚ := none
  motionScoreMax : Option ℚ := none
  motionScoreComparisons : Option ℕ := none
  budgetMs : Option ℚ := none
  truncatedByBudget : Option Bool := none
  motionDetected : Option Bool := none

/-- The running maximum of the probe / full-pass score loops: the `max`
accumulator starts at the first score (`comparisons === 0 ? score :
Math.max(max, score)`), 0 when there is no comparison. -/
def _runningMax (scores : List ℚ) : ℚ :=
  match scores with
  | [] => 0
  | s :: rest => rest.foldl Max.max s

/-- `probeIndexes` inside `_collectFrames`. -/
def _probeIndexes (frameCount : ℕ) : List ℕ :=
  evenlySpacedIndexes frameCount (Min.min frameCount GIF_MOTION_PROBE_FRAME_COUNT)

/-- The probe scores of `_collectFrames`: the motion score between each
pair of consecutive probe frames. -/
def _probeScores (capture : ℕ → List ℕ) (frameCount : ℕ) : List ℚ :=
  ((_probeIndexes frameCount).zip (_probeIndexes frameCount).tail).map
    (fun p => motionScore (capture p.1) (capture p.2) GIF_MOTION_SAMPLE_STRIDE)

/-- `probeAverageMotionScore` inside `_collectFrames`. -/
def _probeAverageMotionScore (capture : ℕ → List ℕ) (frameCount : ℕ) : ℚ :=
  let scores := _probeScores capture frameCount
  if scores.length = 0 then 0 else scores.sum / (scores.length : ℚ)

/-- `probeScoreMax` inside `_collectFrames`. -/
def _probeMaxMotionScore (capture : ℕ → List ℕ) (frameCount : ℕ) : ℚ :=
  _runningMax (_probeScores capture frameCount)

/-- The early still-image probe decision of `_collectFrames`:
`createJpegIfMotionIsLow && probeAverageMotionScore <= GIF_MOTION_SCORE_JPEG_CUTOFF
&& probeScoreMax <= GIF_MOTION_EARLY_JPEG_MAX_SCORE`. -/
def _earlyJpegProbe (inp : CollectFramesInput) : Bool :=
  inp.createJpegIfMotionIsLow &&
    decide (_probeAverageMotionScore inp.capture inp.frameTimestamps.length ≤
      GIF_MOTION_SCORE_JPEG_CUTOFF) &&
    decide (_probeMaxMotionScore inp.capture inp.frameTimestamps.length ≤
      GIF_MOTION_EARLY_JPEG_MAX_SCORE)

/-- The mutable state of the full motion pass of `_collectFrames`.
`lastIndex` is the planned-frame index of `pendingFrameBuffer` /
`previousFrame` / `pendingTimestampMs` (they always track the most
recently processed frame). -/
structure MotionPassState where
  frameBuffers : List (List ℕ)
  frameDelayMs : List ℚ
  lastIndex : ℕ
  lastFlushedTimestampMs : ℚ
  motionScoreTotal : ℚ
  motionScoreMax : ℚ
  motionScoreComparisons : ℕ
  truncatedByBudget : Bool

/-- One non-truncated iteration of the full motion pass loop (body of the
`for` loop of `_collectFrames` past the budget check and the yield). -/
def _motionPassBody (inp : CollectFramesInput) (s : MotionPassState) (i : ℕ) :
    MotionPassState :=
  let currentFrame := inp.capture i
  let previousFrame := inp.capture s.lastIndex
  let score := motionScore previousFrame currentFrame GIF_MOTION_SAMPLE_STRIDE
  let tsI := inp.frameTimestamps.getD i 0
  let elapsedSinceFlushMs : ℚ :=
    Max.max MIN_GIF_FRAME_DELAY_MS ((jsRound (tsI - s.lastFlushedTimestampMs) : ℤ) : ℚ)
  let requiredDelayMs := requiredDelayMsForMotionScore score inp.baseFrameDelayMs
  let flush : Bool := decide (GIF_MOTION_NEW_DRAWING_THRESHOLD < score) &&
    decide (requiredDelayMs ≤ elapsedSinceFlushMs)
  { frameBuffers := if flush then s.frameBuffers ++ [previousFrame] else s.frameBuffers
    frameDelayMs := if flush then s.frameDelayMs ++ [elapsedSinceFlushMs] else s.frameDelayMs
    lastIndex := i
    lastFlushedTimestampMs := if flush then tsI else s.lastFlushedTimestampMs
    motionScoreTotal := s.motionScoreTotal + score
    motionScoreMax := if s.motionScoreComparisons = 0 then score
      else Max.max s.motionScoreMax score
    motionScoreComparisons := s.motionScoreComparisons + 1
    truncatedByBudget := s.truncatedByBudget }

/-- The full motion pass loop of `_collectFrames` over the planned frame
indices `1 .. frameTimestamps.length - 1`: each iteration first compares
the elapsed wall clock against the collection budget and breaks with
`truncatedByBudget = true` on exhaustion. -/
def _motionPassLoop (inp : CollectFramesInput) (budget : ℚ) :
    List ℕ → MotionPassState → MotionPassState
  | [], s => s
  | i :: rest, s =>
    if budget ≤ inp.elapsedAtCheck i then { s with truncatedByBudget := true }
    else _motionPassLoop inp budget rest (_motionPassBody inp s i)

/-- The initial motion-pass state of `_collectFrames` (first frame captured
eagerly, nothing flushed yet). -/
def _motionPassInit (inp : CollectFramesInput) : MotionPassState :=
  { frameBuffers := [], frameDelayMs := [], lastIndex := 0,
    lastFlushedTimestampMs := inp.frameTimestamps.getD 0 0,
    motionScoreTotal := 0, motionScoreMax := 0, motionScoreComparisons := 0,
    truncatedByBudget := false }

/-- `GifFileImageData._collectFrames` from `src/common/src/image.ts`. -/
def _collectFrames (inp : CollectFramesInput) : CollectedGifFrames :=
  let len := inp.frameTimestamps.length
  if len = 0 then { frameBuffers := [], frameDelayMs := [] }
  else if len = 1 then
    { frameBuffers := [inp.capture 0], frameDelayMs := [inp.baseFrameDelayMs] }
  else if inp.detectMotion = false then
    let frameBuffers := (List.range len).map inp.capture
    { frameBuffers := frameBuffers,
      frameDelayMs := List.replicate frameBuffers.length inp.baseFrameDelayMs }
  else
    let collectionBudgetMs :=
      _collectionBudgetMs inp.durationMs inp.motionCollectionBudgetOverrideMs
    if _earlyJpegProbe inp then
      { frameBuffers := [inp.capture (len - 1)],
        frameDelayMs := [Max.max MIN_GIF_FRAME_DELAY_MS ((jsRound inp.durationMs : ℤ) : ℚ)],
        motionScore := some (_probeAverageMotionScore inp.capture len),
        motionScoreMax := some (_probeMaxMotionScore inp.capture len),
        motionScoreComparisons := some (_probeScores inp.capture len).length,
        budgetMs := some collectionBudgetMs,
        truncatedByBudget := some false,
        motionDetected := some false }
    else
      let s := _motionPassLoop inp collectionBudgetMs (List.range' 1 (len - 1))
        (_motionPassInit inp)
      let pendingTimestampMs := inp.frameTimestamps.getD s.lastIndex 0
      let finalFrameDelayMs := Max.max MIN_GIF_FRAME_DELAY_MS
        ((jsRound (Max.max inp.baseFrameDelayMs
          (pendingTimestampMs - s.lastFlushedTimestampMs)) : ℤ) : ℚ)
      let averageMotionScore :=
        if s.motionScoreComparisons = 0 then 0
        else s.motionScoreTotal / (s.motionScoreComparisons : ℚ)
      if inp.createJpegIfMotionIsLow = true ∧
          averageMotionScore ≤ GIF_MOTION_SCORE_JPEG_CUTOFF ∧
          s.motionScoreMax ≤ GIF_MOTION_SCORE_JPEG_CUTOFF then
        { frameBuffers := [inp.capture s.lastIndex],
          frameDelayMs := [Max.max MIN_GIF_FRAME_DELAY_MS ((jsRound inp.durationMs : ℤ) : ℚ)],
          motionScore := some averageMotionScore,
          motionScoreMax := some s.motionScoreMax,
          motionScoreComparisons := some s.motionScoreComparisons,
          budgetMs := some collectionBudgetMs,
          truncatedByBudget := some s.truncatedByBudget,
          motionDetected := some false }
      else
        { frameBuffers := s.frameBuffers ++ [inp.capture s.lastIndex],
          frameDelayMs := s.frameDelayMs ++ [finalFrameDelayMs],
          motionScore := some averageMotionScore,
          motionScoreMax := some s.motionScoreMax,
          motionScoreComparisons := some s.motionScoreComparisons,
          budgetMs := some collectionBudgetMs,
          truncatedByBudget := some s.truncatedByBudget,
          motionDetected := some true }

/-- The output artifact format. -/
inductive OutputExtension where
  | gif
  | jpeg
deriving DecidableEq

/-- The output-format decision of `_renderGifInWorker`
(`src/common/src/image.ts`): exactly one collected frame is encoded as a
JPEG still, anything else goes down the GIF path. -/
def _outputExtension (frameBuffers : List (List ℕ)) : OutputExtension :=
  if frameBuffers.length = 1 then OutputExtension.jpeg else OutputExtension.gif

lemma _foldl_max_all_zero : ∀ l : List ℚ, (∀ x ∈ l, x = 0) → l.foldl Max.max 0 = 0 := by
  intro l
  induction l with
  | nil => intro _; rfl
  | cons y ys ih =>
    intro h
    have hy : y = 0 := h y (List.mem_cons_self y ys)
    subst hy
    simp only [List.foldl_cons, max_self]
    exact ih (fun x hx => h x (List.mem_cons_of_mem _ hx))

lemma _runningMax_of_all_zero (scores : List ℚ) (h : ∀ x ∈ scores, x = 0) :
    _runningMax scores = 0 := by
  unfold _runningMax
  match scores with
  | [] => rfl
  | s :: rest =>
    have hs : s = 0 := h s (List.mem_cons_self s rest)
    subst hs
    exact _foldl_max_all_zero rest (fun x hx => h x (List.mem_cons_of_mem _ hx))

lemma _probeScores_all_zero (inp : CollectFramesInput)
    (hsame : ∀ i, inp.capture i = inp.capture 0) :
    ∀ x ∈ _probeScores inp.capture inp.frameTimestamps.length, x = 0 := by
  intro x hx
  unfold _probeScores at hx
  rcases List.mem_map.mp hx with ⟨p, hp, rfl⟩
  rw [hsame p.1, hsame p.2]
  exact motionScore_self _ _

lemma _earlyJpegProbe_of_identical (inp : CollectFramesInput)
    (hjpeg : inp.createJpegIfMotionIsLow = true)
    (hsame : ∀ i, inp.capture i = inp.capture 0) :
    _earlyJpegProbe inp = true := by
  have hall := _probeScores_all_zero inp hsame
  have havg : _probeAverageMotionScore inp.capture inp.frameTimestamps.length = 0 := by
    unfold _probeAverageMotionScore
    have hsum : (_probeScores inp.capture inp.frameTimestamps.length).sum = 0 :=
      List.sum_eq_zero hall
    dsimp only
    split
    · rfl
    · rw [hsum, zero_div]
  have hmax : _probeMaxMotionScore inp.capture inp.frameTimestamps.length = 0 :=
    _runningMax_of_all_zero _ hall
  unfold _earlyJpegProbe
  rw [hjpeg, havg, hmax]
  norm_num [GIF_MOTION_SCORE_JPEG_CUTOFF, GIF_MOTION_EARLY_JPEG_MAX_SCORE]

/-- C3 (amended): identical frame pairs always score 0 for every sample
stride; and a render with `detectMotion` *and* `createJpegIfMotionIsLow`
enabled whose captured frames are all identical always takes the
low-motion still-image path — the early probe exits with a single frame,
`motionDetected = false`, and the single-frame result is encoded as a
JPEG, not as an animated GIF. -/
theorem identicalFrames_stillImagePath (frame : List ℕ) (sampleStride : ℕ)
    (inp : CollectFramesInput)
    (hlen : 2 ≤ inp.frameTimestamps.length)
    (hdm : inp.detectMotion = true)
    (hjpeg : inp.createJpegIfMotionIsLow = true)
    (hsame : ∀ i, inp.capture i = inp.capture 0) :
    motionScore frame frame sampleStride = 0 ∧
      (_collectFrames inp).frameBuffers = [inp.capture 0] ∧
      _outputExtension (_collectFrames inp).frameBuffers = OutputExtension.jpeg ∧
      (_collectFrames inp).motionDetected = some false := by
  have h0 : ¬ inp.frameTimestamps.length = 0 := by omega
  have h1 : ¬ inp.frameTimestamps.length = 1 := by omega
  have hdm' : ¬ inp.detectMotion = false := by rw [hdm]; simp
  have hearly := _earlyJpegProbe_of_identical inp hjpeg hsame
  have hframes : (_collectFrames inp).frameBuffers = [inp.capture 0] := by
    simp only [_collectFrames]
    rw [if_neg h0, if_neg h1, if_neg hdm', if_pos hearly]
    rw [hsame (inp.frameTimestamps.length - 1)]
  refine ⟨motionScore_self frame sampleStride, hframes, ?_, ?_⟩
  · rw [hframes]
    rfl
  · simp only [_collectFrames]
    rw [if_neg h0, if_neg h1, if_neg hdm', if_pos hearly]

/-- C3 witness: three planned frames with a constant capture function,
`detectMotion` and `createJpegIfMotionIsLow` enabled: one frame comes
back and the JPEG path is chosen. -/
theorem identicalFrames_stillImagePath_witness :
    (_collectFrames
        { frameTimestamps := [0, 500, 1000], baseFrameDelayMs := 500, durationMs := 1000,
          detectMotion := true, createJpegIfMotionIsLow := true,
          capture := fun _ => [7, 7, 7, 255], elapsedAtCheck := fun _ => 0,
          motionCollectionBudgetOverrideMs := none }).frameBuffers = [[7, 7, 7, 255]] ∧
      _outputExtension (_collectFrames
        { frameTimestamps := [0, 500, 1000], baseFrameDelayMs := 500, durationMs := 1000,
          detectMotion := true, createJpegIfMotionIsLow := true,
          capture := fun _ => [7, 7, 7, 255], elapsedAtCheck := fun _ => 0,
          motionCollectionBudgetOverrideMs := none }).frameBuffers = OutputExtension.jpeg := by
  have h := identicalFrames_stillImagePath [] 4
    { frameTimestamps := [0, 500, 1000], baseFrameDelayMs := 500, durationMs := 1000,
      detectMotion := true, createJpegIfMotionIsLow := true,
      capture := fun _ => [7, 7, 7, 255], elapsedAtCheck := fun _ => 0,
      motionCollectionBudgetOverrideMs := none }
    (by decide) rfl rfl (fun i => rfl)
  exact ⟨h.2.1, h.2.2.1⟩

/-- C3 counterexample: the claim as stated quantifies over *every* render
with `createJpegIfMotionIsLow` enabled, but when `detectMotion` is
disabled the motion analyzer never runs: a three-frame render whose
captured frames are all identical and whose `createJpegIfMotionIsLow`
flag is `true` emits all three identical frames and goes down the GIF
path instead of the still-image path. -/
theorem identicalFrames_gif_when_detectMotion_off :
    (_collectFrames
        { frameTimestamps := [0, 500, 1000], baseFrameDelayMs := 500, durationMs := 1000,
          detectMotion := false, createJpegIfMotionIsLow := true,
          capture := fun _ => [7, 7, 7, 255], elapsedAtCheck := fun _ => 0,
          motionCollectionBudgetOverrideMs := none }).frameBuffers =
      [[7, 7, 7, 255], [7, 7, 7, 255], [7, 7, 7, 255]] ∧
      _outputExtension (_collectFrames
        { frameTimestamps := [0, 500, 1000], baseFrameDelayMs := 500, durationMs := 1000,
          detectMotion := false, createJpegIfMotionIsLow := true,
          capture := fun _ => [7, 7, 7, 255], elapsedAtCheck := fun _ => 0,
          motionCollectionBudgetOverrideMs := none }).frameBuffers = OutputExtension.gif := by
  constructor
  · decide
  · decide

lemma _motionPassLoop_truncated (inp : CollectFramesInput) (budget : ℚ) :
    ∀ (l : List ℕ) (s : MotionPassState), (∃ i ∈ l, budget ≤ inp.elapsedAtCheck i) →
      _motionPassLoop inp budget l s =
        { (l.takeWhile (fun i => decide (inp.elapsedAtCheck i < budget))).foldl
            (_motionPassBody inp) s with truncatedByBudget := true } := by
  intro l
  induction l with
  | nil =>
    intro s hex
    rcases hex with ⟨i, hi, _⟩
    exact absurd hi (List.not_mem_nil i)
  | cons i rest ih =>
    intro s hex
    by_cases hb : budget ≤ inp.elapsedAtCheck i
    · have hdec : decide (inp.elapsedAtCheck i < budget) = false := by
        simp [not_lt.mpr hb]
      rw [_motionPassLoop, if_pos hb, List.takeWhile_cons]
      simp only [hdec]
      rfl
    · have hdec : decide (inp.elapsedAtCheck i < budget) = true := by
        simp [lt_of_not_le hb]
      have hex' : ∃ j ∈ rest, budget ≤ inp.elapsedAtCheck j := by
        rcases hex with ⟨j, hj, hbj⟩
        rcases List.mem_cons.mp hj with rfl | hj'
        · exact absurd hbj hb
        · exact ⟨j, hj', hbj⟩
      rw [_motionPassLoop, if_neg hb, List.takeWhile_cons]
      simp only [hdec, if_true]
      rw [List.foldl_cons]
      exact ih (_motionPassBody inp s i) hex'

lemma _motionPassBody_truncated_flag (inp : CollectFramesInput) (s : MotionPassState) (i : ℕ) :
    (_motionPassBody inp s i).truncatedByBudget = s.truncatedByBudget := rfl

lemma _motionPassFold_truncated_flag (inp : CollectFramesInput) :
    ∀ (l : List ℕ) (s : MotionPassState),
      (l.foldl (_motionPassBody inp) s).truncatedByBudget = s.truncatedByBudget := by
  intro l
  induction l with
  | nil => intro s; rfl
  | cons i rest ih =>
    intro s
    rw [List.foldl_cons, ih, _motionPassBody_truncated_flag]

lemma _motionPassFold_frames (inp : CollectFramesInput) :
    ∀ (l : List ℕ) (s : MotionPassState) (B : ℕ),
      s.lastIndex ≤ B → (∀ i ∈ l, i ≤ B) →
      (∀ b ∈ s.frameBuffers, ∃ j ≤ B, b = inp.capture j) →
      ((l.foldl (_motionPassBody inp) s).lastIndex ≤ B ∧
        ∀ b ∈ (l.foldl (_motionPassBody inp) s).frameBuffers, ∃ j ≤ B, b = inp.capture j) := by
  intro l
  induction l with
  | nil => intro s B hlast _ hframes; exact ⟨hlast, hframes⟩
  | cons i rest ih =>
    intro s B hlast hmem hframes
    rw [List.foldl_cons]
    refine ih (_motionPassBody inp s i) B ?_ (fun j hj => hmem j (List.mem_cons_of_mem _ hj)) ?_
    · exact hmem i (List.mem_cons_self i rest)
    · intro b hb
      unfold _motionPassBody at hb
      dsimp only at hb
      by_cases hfl : (decide (GIF_MOTION_NEW_DRAWING_THRESHOLD <
          motionScore (inp.capture s.lastIndex) (inp.capture i) GIF_MOTION_SAMPLE_STRIDE) &&
          decide (requiredDelayMsForMotionScore
              (motionScore (inp.capture s.lastIndex) (inp.capture i) GIF_MOTION_SAMPLE_STRIDE)
              inp.baseFrameDelayMs ≤
            Max.max MIN_GIF_FRAME_DELAY_MS
              ((jsRound (inp.frameTimestamps.getD i 0 - s.lastFlushedTimestampMs) : ℤ) : ℚ))) = true
      · rw [if_pos hfl] at hb
        rcases List.mem_append.mp hb with hb' | hb'
        · exact hframes b hb'
        · rcases List.mem_singleton.mp hb' with rfl
          exact ⟨s.lastIndex, hlast, rfl⟩
      · rw [if_neg hfl] at hb
        exact hframes b hb

lemma _takeWhile_range' (p : ℕ → Bool) :
    ∀ (n a : ℕ), ∃ t ≤ n, (List.range' a n).takeWhile p = List.range' a t := by
  intro n
  induction n with
  | zero =>
    intro a
    exact ⟨0, le_refl 0, rfl⟩
  | succ n ih =>
    intro a
    rw [List.range'_succ, List.takeWhile_cons]
    by_cases hp : p a = true
    · rcases ih (a + 1) with ⟨t, ht, heq⟩
      refine ⟨t + 1, by omega, ?_⟩
      simp only [hp, if_true]
      rw [List.range'_succ, heq]
    · refine ⟨0, by omega, ?_⟩
      rw [Bool.not_eq_true] at hp
      simp only [hp]
      rfl

/-- C5: whenever the full motion pass observes at one of its budget checks
that the accumulated collection time has reached the collection budget,
`_collectFrames` stops collecting, still returns a (non-empty) result with
`truncatedByBudget = true`, and every returned frame buffer is the capture
of a planned frame processed before the exhausted check — budget
exhaustion never throws and never yields an empty result. -/
theorem collectFrames_budget_truncation (inp : CollectFramesInput)
    (hlen : 2 ≤ inp.frameTimestamps.length)
    (hdm : inp.detectMotion = true)
    (hearly : _earlyJpegProbe inp = false)
    (hex : ∃ i ∈ List.range' 1 (inp.frameTimestamps.length - 1),
      _collectionBudgetMs inp.durationMs inp.motionCollectionBudgetOverrideMs ≤
        inp.elapsedAtCheck i) :
    (_collectFrames inp).truncatedByBudget = some true ∧
      (_collectFrames inp).frameBuffers ≠ [] ∧
      ∀ b ∈ (_collectFrames inp).frameBuffers,
        ∃ j ≤ ((List.range' 1 (inp.frameTimestamps.length - 1)).takeWhile
            (fun i => decide (inp.elapsedAtCheck i <
              _collectionBudgetMs inp.durationMs inp.motionCollectionBudgetOverrideMs))).length,
          b = inp.capture j := by
  have h0 : ¬ inp.frameTimestamps.length = 0 := by omega
  have h1 : ¬ inp.frameTimestamps.length = 1 := by omega
  have hdm' : ¬ inp.detectMotion = false := by rw [hdm]; simp
  have hearly' : ¬ _earlyJpegProbe inp = true := by rw [hearly]; simp
  have hloop := _motionPassLoop_truncated inp
    (_collectionBudgetMs inp.durationMs inp.motionCollectionBudgetOverrideMs)
    (List.range' 1 (inp.frameTimestamps.length - 1)) (_motionPassInit inp) hex
  -- the processed prefix is itself a consecutive range starting at 1,
  -- so its members are bounded by its length
  have htwmem : ∀ i ∈ (List.range' 1 (inp.frameTimestamps.length - 1)).takeWhile
      (fun i => decide (inp.elapsedAtCheck i <
        _collectionBudgetMs inp.durationMs inp.motionCollectionBudgetOverrideMs)),
      i ≤ ((List.range' 1 (inp.frameTimestamps.length - 1)).takeWhile
        (fun i => decide (inp.elapsedAtCheck i <
          _collectionBudgetMs inp.durationMs inp.motionCollectionBudgetOverrideMs))).length := by
    rcases _takeWhile_range' (fun i => decide (inp.elapsedAtCheck i <
      _collectionBudgetMs inp.durationMs inp.motionCollectionBudgetOverrideMs))
      (inp.frameTimestamps.length - 1) 1 with ⟨t, _, heq⟩
    rw [heq]
    intro i hi
    rcases List.mem_range'_1.mp hi with ⟨h1i, h2i⟩
    simp only [List.length_range']
    omega
  have hfold := _motionPassFold_frames inp
    ((List.range' 1 (inp.frameTimestamps.length - 1)).takeWhile
      (fun i => decide (inp.elapsedAtCheck i <
        _collectionBudgetMs inp.durationMs inp.motionCollectionBudgetOverrideMs)))
    (_motionPassInit inp)
    ((List.range' 1 (inp.frameTimestamps.length - 1)).takeWhile
      (fun i => decide (inp.elapsedAtCheck i <
        _collectionBudgetMs inp.durationMs inp.motionCollectionBudgetOverrideMs))).length
    (by simp [_motionPassInit]) htwmem (by simp [_motionPassInit])
  simp only [_collectFrames]
  rw [if_neg h0, if_neg h1, if_neg hdm', if_neg hearly']
  simp only [hloop]
  split <;> split <;>
    first
      | (refine ⟨rfl, by simp, ?_⟩
         intro b hb
         rcases List.mem_singleton.mp hb with rfl
         exact ⟨_, hfold.1, rfl⟩)
      | (refine ⟨rfl, by simp, ?_⟩
         intro b hb
         rcases List.mem_append.mp hb with hb' | hb'
         · exact hfold.2 b hb'
         · rcases List.mem_singleton.mp hb' with rfl
           exact ⟨_, hfold.1, rfl⟩)

/-- C5 witness: six planned frames, default budget (1400 ms for a 1000 ms
clip), with the wall clock exceeding the budget from the check of
iteration 3 on: the run truncates and reports it. -/
theorem collectFrames_budget_truncation_witness :
    (_collectFrames
        { frameTimestamps := [0, 200, 400, 600, 800, 1000], baseFrameDelayMs := 200,
          durationMs := 1000, detectMotion := true, createJpegIfMotionIsLow := false,
          capture := fun i => [(i * 60) % 256, 0, 0, 255],
          elapsedAtCheck := fun i => if 3 ≤ i then 5000 else 0,
          motionCollectionBudgetOverrideMs := none }).truncatedByBudget = some true ∧
      (_collectFrames
        { frameTimestamps := [0, 200, 400, 600, 800, 1000], baseFrameDelayMs := 200,
          durationMs := 1000, detectMotion := true, createJpegIfMotionIsLow := false,
          capture := fun i => [(i * 60) % 256, 0, 0, 255],
          elapsedAtCheck := fun i => if 3 ≤ i then 5000 else 0,
          motionCollectionBudgetOverrideMs := none }).frameBuffers ≠ [] := by
  have hbudget : _collectionBudgetMs 1000 none = 1400 := by
    rw [_collectionBudgetMs, _defaultCollectionBudgetMs]
    norm_num [jsRound, GIF_MOTION_COLLECTION_BUDGET_MULTIPLIER,
      GIF_MOTION_COLLECTION_BUDGET_PADDING_MS, GIF_MOTION_COLLECTION_BUDGET_MIN_MS]
  have h := collectFrames_budget_truncation
    { frameTimestamps := [0, 200, 400, 600, 800, 1000], baseFrameDelayMs := 200,
      durationMs := 1000, detectMotion := true, createJpegIfMotionIsLow := false,
      capture := fun i => [(i * 60) % 256, 0, 0, 255],
      elapsedAtCheck := fun i => if 3 ≤ i then 5000 else 0,
      motionCollectionBudgetOverrideMs := none }
    (by decide) rfl (by simp [_earlyJpegProbe])
    ⟨3, by decide, by dsimp only; rw [hbudget]; norm_num⟩
  exact ⟨h.1, h.2.1⟩

lemma _collectFrames_frames_ne_nil (inp : CollectFramesInput)
    (hlen : 1 ≤ inp.frameTimestamps.length) :
    (_collectFrames inp).frameBuffers ≠ [] := by
  have h0 : ¬ inp.frameTimestamps.length = 0 := by omega
  simp only [_collectFrames]
  rw [if_neg h0]
  by_cases h1 : inp.frameTimestamps.length = 1
  · rw [if_pos h1]; simp
  · rw [if_neg h1]
    by_cases hdm : inp.detectMotion = false
    · rw [if_pos hdm]
      simp only [ne_eq, List.map_eq_nil_iff, List.range_eq_nil]
      omega
    · rw [if_neg hdm]
      by_cases hearly : _earlyJpegProbe inp = true
      · rw [if_pos hearly]; simp
      · rw [if_neg hearly]
        split <;> split <;> simp

/-- C10 (implicit): whenever frame collection yields exactly one frame
buffer — for any reason, including a single-timestamp plan or disabled
motion detection — the render encodes a JPEG still, never a one-frame
GIF; and the GIF extension is produced only when at least two frames were
collected. -/
theorem singleFrame_always_jpeg (inp : CollectFramesInput)
    (hlen : 1 ≤ inp.frameTimestamps.length) :
    ((_collectFrames inp).frameBuffers.length = 1 →
        _outputExtension (_collectFrames inp).frameBuffers = OutputExtension.jpeg) ∧
      (_outputExtension (_collectFrames inp).frameBuffers = OutputExtension.gif →
        2 ≤ (_collectFrames inp).frameBuffers.length) := by
  constructor
  · intro hone
    unfold _outputExtension
    rw [if_pos hone]
  · intro hgif
    have hne := _collectFrames_frames_ne_nil inp hlen
    unfold _outputExtension at hgif
    by_cases hone : (_collectFrames inp).frameBuffers.length = 1
    · rw [if_pos hone] at hgif
      exact absurd hgif (by simp)
    · have hpos : 0 < (_collectFrames inp).frameBuffers.length :=
        List.length_pos_of_ne_nil hne
      omega

/-- C10 witness: the two-frame identical capture of the no-motion-detection
path yields a GIF with at least 2 frames, while a single-timestamp plan
yields a JPEG. -/
theorem singleFrame_always_jpeg_witness :
    _outputExtension (_collectFrames
        { frameTimestamps := [0], baseFrameDelayMs := 1000, durationMs := 1000,
          detectMotion := false, createJpegIfMotionIsLow := false,
          capture := fun _ => [1, 2, 3, 255], elapsedAtCheck := fun _ => 0,
          motionCollectionBudgetOverrideMs := none }).frameBuffers = OutputExtension.jpeg := by
  have h := singleFrame_always_jpeg
    { frameTimestamps := [0], baseFrameDelayMs := 1000, durationMs := 1000,
      detectMotion := false, createJpegIfMotionIsLow := false,
      capture := fun _ => [1, 2, 3, 255], elapsedAtCheck := fun _ => 0,
      motionCollectionBudgetOverrideMs := none } (by decide)
  exact h.1 (by decide)

/-! ## Apply-palette worker pool (`_applyPaletteInWorkerPool`,
`src/common/src/image.ts`)

The promise machinery is embedded as an explicit state machine.  A task's
worker round-trip (`_applyPaletteInWorker`) is abstracted as a per-frame
outcome `g : ℕ → Except ε β`: `Except.ok b` models an `appliedPalette`
response (whose echoed `frameIndex` addresses the results slot), and
`Except.error e` models either an `error` response or a worker crash
(both reach the task promise's `.catch`).  The nondeterministic order in
which in-flight tasks complete is an explicit choice sequence: at each
step, `pick % inFlight.length` selects which in-flight task's completion
callback fires next. -/

/-- The closure state of the `Promise` body of `_applyPaletteInWorkerPool`:
`nextFrameIndex`, the set of frame indices currently assigned to a worker,
the pre-sized results array `frameIndexBuffers`, `completedFrameCount`,
and the settled-ness of the promise (`resolve`/`reject` value). -/
structure PoolState (ε β : Type) where
  nextFrameIndex : ℕ
  inFlight : List ℕ
  frameIndexBuffers : List (Option β)
  completedFrameCount : ℕ
  settledResult : Option (Except ε (List (Option β)))

/-- `schedule` from `_applyPaletteInWorkerPool`: a no-op once settled;
once the frame queue is exhausted it resolves only if everything
completed; otherwise it assigns the next unassigned frame index to the
idle worker (the new task becomes in-flight). -/
def _schedule {ε β : Type} (frameCount : ℕ) (s : PoolState ε β) : PoolState ε β :=
  if s.settledResult.isSome then s
  else if frameCount ≤ s.nextFrameIndex then
    if frameCount ≤ s.completedFrameCount then
      { s with settledResult := some (Except.ok s.frameIndexBuffers) }
    else s
  else
    { s with nextFrameIndex := s.nextFrameIndex + 1,
             inFlight := s.inFlight ++ [s.nextFrameIndex] }

/-- One completion event: the in-flight task selected by the choice
`pick` finishes.  On an error outcome `fail` settles the promise with
that single error (`settled` guards re-entry); on success the result is
stored at the task's own `frameIndex` (not at a completion-order
position), the counter advances, and either the promise resolves (all
frames done) or the now-idle worker is rescheduled. -/
def _completeTask {ε β : Type} (g : ℕ → Except ε β) (frameCount : ℕ)
    (s : PoolState ε β) (pick : ℕ) : PoolState ε β :=
  if s.settledResult.isSome then s
  else if s.inFlight.isEmpty then s
  else
    let k := pick % s.inFlight.length
    let frameIndex := s.inFlight.getD k 0
    let s1 : PoolState ε β := { s with inFlight := s.inFlight.eraseIdx k }
    match g frameIndex with
    | Except.error e => { s1 with settledResult := some (Except.error e) }
    | Except.ok b =>
      let s2 : PoolState ε β :=
        { s1 with
          frameIndexBuffers := s1.frameIndexBuffers.set frameIndex (some b)
          completedFrameCount := s1.completedFrameCount + 1 }
      if frameCount ≤ s2.completedFrameCount then
        { s2 with settledResult := some (Except.ok s2.frameIndexBuffers) }
      else _schedule frameCount s2

/-- The initial pool state: a pre-sized results array and one `schedule`
call per worker of the pool. -/
def _initPool (ε β : Type) (frameCount workers : ℕ) : PoolState ε β :=
  (List.range workers).foldl (fun s _ => _schedule frameCount s)
    { nextFrameIndex := 0, inFlight := [],
      frameIndexBuffers := List.replicate frameCount none,
      completedFrameCount := 0, settledResult := none }

/-- A whole `_applyPaletteInWorkerPool` run: initial scheduling followed
by the completion events in the order given by `order`. -/
def _applyPaletteInWorkerPool {ε β : Type} (g : ℕ → Except ε β)
    (frameCount workers : ℕ) (order : List ℕ) : PoolState ε β :=
  order.foldl (_completeTask g frameCount) (_initPool ε β frameCount workers)

lemma _completeTask_settled {ε β : Type} (g : ℕ → Except ε β) (frameCount : ℕ)
    (s : PoolState ε β) (pick : ℕ) (h : s.settledResult.isSome) :
    _completeTask g frameCount s pick = s := by
  unfold _completeTask
  rw [if_pos h]

lemma _foldl_completeTask_settled {ε β : Type} (g : ℕ → Except ε β) (frameCount : ℕ) :
    ∀ (order : List ℕ) (s : PoolState ε β), s.settledResult.isSome →
      order.foldl (_completeTask g frameCount) s = s := by
  intro order
  induction order with
  | nil => intro s _; rfl
  | cons pick rest ih =>
    intro s h
    rw [List.foldl_cons, _completeTask_settled g frameCount s pick h, ih s h]

lemma _eraseIdx_facts {l : List ℕ} {k : ℕ} (hk : k < l.length) (hnd : l.Nodup) :
    l.getD k 0 ∉ l.eraseIdx k ∧
      (∀ x ∈ l.eraseIdx k, x ∈ l) ∧
      (∀ x ∈ l, x ≠ l.getD k 0 → x ∈ l.eraseIdx k) ∧
      (l.eraseIdx k).Nodup ∧
      (l.eraseIdx k).length + 1 = l.length := by
  induction l generalizing k with
  | nil => simp at hk
  | cons a t ih =>
    rcases Nat.eq_zero_or_pos k with rfl | hkpos
    · simp only [List.eraseIdx_cons_zero, List.getD_cons_zero]
      refine ⟨(List.nodup_cons.mp hnd).1, fun x hx => List.mem_cons_of_mem _ hx, ?_,
        (List.nodup_cons.mp hnd).2, by simp⟩
      intro x hx hne
      rcases List.mem_cons.mp hx with rfl | h
      · exact absurd rfl hne
      · exact h
    · obtain ⟨k2, rfl⟩ : ∃ k2, k = k2 + 1 := ⟨k - 1, by omega⟩
      have hk2 : k2 < t.length := by simpa using hk
      have hndt : t.Nodup := (List.nodup_cons.mp hnd).2
      have hat : a ∉ t := (List.nodup_cons.mp hnd).1
      obtain ⟨h1, h2, h3, h4, h5⟩ := ih hk2 hndt
      have hget_mem : t.getD k2 0 ∈ t := by
        rw [List.getD_eq_getElem t 0 hk2]
        exact List.getElem_mem hk2
      simp only [List.eraseIdx_cons_succ, List.getD_cons_succ]
      refine ⟨?_, ?_, ?_, ?_, by simp [Nat.succ_eq_add_one]; omega⟩
      · intro hmemc
        rcases List.mem_cons.mp hmemc with heq | hmem2
        · rw [heq] at hget_mem
          exact hat hget_mem
        · exact h1 hmem2
      · intro x hx
        rcases List.mem_cons.mp hx with rfl | hx2
        · exact List.mem_cons_self _ _
        · exact List.mem_cons_of_mem _ (h2 x hx2)
      · intro x hx hne
        rcases List.mem_cons.mp hx with rfl | hx2
        · exact List.mem_cons_self _ _
        · exact List.mem_cons_of_mem _ (h3 x hx2 hne)
      · rw [List.nodup_cons]
        exact ⟨fun hmemc => hat (h2 a hmemc), h4⟩

/-- The inductive invariant of the pool's promise body between completion
events, while the promise is still pending: frames `0 ..
nextFrameIndex-1` are assigned; of those, the ones not in flight have
completed successfully and their result sits at their own index in the
results array; all other slots are still empty; and the assignment
frontier equals `min frameCount (workers + completed)` (work stealing). -/
structure PoolInv {ε β : Type} (g : ℕ → Except ε β) (N W : ℕ) (s : PoolState ε β) : Prop where
  hnext : s.nextFrameIndex = Min.min N (W + s.completedFrameCount)
  hnodup : s.inFlight.Nodup
  hmem : ∀ i ∈ s.inFlight, i < s.nextFrameIndex
  hcount : s.inFlight.length + s.completedFrameCount = s.nextFrameIndex
  hbuflen : s.frameIndexBuffers.length = N
  hbufdone : ∀ i < s.nextFrameIndex, i ∉ s.inFlight →
    ∃ b, g i = Except.ok b ∧ s.frameIndexBuffers.getD i none = some b
  hbufnone : ∀ i < N, s.nextFrameIndex ≤ i ∨ i ∈ s.inFlight →
    s.frameIndexBuffers.getD i none = none
  hsettled : s.settledResult = none
  hdone : s.completedFrameCount < N

lemma _initPool_eq (ε β : Type) (N : ℕ) (hN : 1 ≤ N) (W : ℕ) :
    _initPool ε β N W =
      { nextFrameIndex := Min.min N W, inFlight := List.range (Min.min N W),
        frameIndexBuffers := List.replicate N none,
        completedFrameCount := 0, settledResult := none } := by
  induction W with
  | zero => simp [_initPool]
  | succ W ih =>
    unfold _initPool at ih ⊢
    rw [List.range_succ, List.foldl_append, ih]
    simp only [List.foldl_cons, List.foldl_nil]
    unfold _schedule
    by_cases hle : N ≤ Min.min N W
    · rw [if_neg (by simp), if_pos hle, if_neg (by dsimp only; omega)]
      have hsame : Min.min N (W + 1) = Min.min N W := by omega
      rw [hsame]
    · rw [if_neg (by simp), if_neg hle]
      have h1 : Min.min N W + 1 = Min.min N (W + 1) := by omega
      rw [← h1, List.range_succ]

lemma _initPool_inv {ε β : Type} (g : ℕ → Except ε β) (N W : ℕ) (hN : 1 ≤ N) :
    PoolInv g N W (_initPool ε β N W) := by
  rw [_initPool_eq ε β N hN W]
  refine ⟨?_, List.nodup_range _, ?_, by simp, by simp, ?_, ?_, rfl, hN⟩
  · dsimp only
    omega
  · intro i hi
    exact List.mem_range.mp hi
  · intro i hi hnotin
    exact absurd (List.mem_range.mpr hi) hnotin
  · intro i hiN _
    simp [List.getD_eq_getElem?_getD]

/-- One completion event from an un-settled, invariant-preserving state
either (a) settles the promise with the single error of a failed task,
(b) completes one more frame and preserves the invariant, or (c) was the
last pending frame: the promise resolves with every frame's result at its
own index. -/
lemma _completeTask_step {ε β : Type} (g : ℕ → Except ε β) (N W : ℕ) (hW : 1 ≤ W)
    (s : PoolState ε β) (hinv : PoolInv g N W s) (pick : ℕ) :
    (∃ e, (∃ j, j < N ∧ g j = Except.error e) ∧
        (_completeTask g N s pick).settledResult = some (Except.error e)) ∨
    (PoolInv g N W (_completeTask g N s pick) ∧
        (_completeTask g N s pick).completedFrameCount = s.completedFrameCount + 1) ∨
    ((∀ i, i < N → ∃ b, g i = Except.ok b) ∧
        (_completeTask g N s pick).settledResult =
          some (Except.ok ((List.range N).map (fun i => (g i).toOption))) ∧
        s.completedFrameCount + 1 = N) := by
  obtain ⟨hnext, hnodup, hmem, hcount, hbuflen, hbufdone, hbufnone, hsettled, hdone⟩ := hinv
  have hflpos : 0 < s.inFlight.length := by
    rw [hnext] at hcount
    omega
  have hsf : ¬ s.settledResult.isSome = true := by
    rw [hsettled]
    simp
  have hne' : ¬ s.inFlight.isEmpty = true := by
    rw [List.isEmpty_iff]
    intro hnil
    rw [hnil] at hflpos
    simp at hflpos
  have hk : pick % s.inFlight.length < s.inFlight.length := Nat.mod_lt _ hflpos
  have hjmem : s.inFlight.getD (pick % s.inFlight.length) 0 ∈ s.inFlight := by
    rw [List.getD_eq_getElem _ 0 hk]
    exact List.getElem_mem hk
  have hjnext : s.inFlight.getD (pick % s.inFlight.length) 0 < s.nextFrameIndex :=
    hmem _ hjmem
  have hnextN : s.nextFrameIndex ≤ N := by omega
  have hjN : s.inFlight.getD (pick % s.inFlight.length) 0 < N := by omega
  obtain ⟨hj_notin, hsub, hkeep, hnody, hlen2⟩ := _eraseIdx_facts hk hnodup
  unfold _completeTask
  rw [if_neg hsf, if_neg hne']
  dsimp only
  cases hgj : g (s.inFlight.getD (pick % s.inFlight.length) 0) with
  | error e =>
    exact Or.inl ⟨e, ⟨_, hjN, hgj⟩, rfl⟩
  | ok b =>
    dsimp only
    have hgetset_j :
        ((s.frameIndexBuffers.set (s.inFlight.getD (pick % s.inFlight.length) 0)
            (some b)).getD (s.inFlight.getD (pick % s.inFlight.length) 0) none) = some b := by
      rw [List.getD_eq_getElem?_getD, List.getElem?_set]
      rw [if_pos rfl, if_pos (by omega)]
      rfl
    have hgetset_ne : ∀ i, i ≠ s.inFlight.getD (pick % s.inFlight.length) 0 →
        ((s.frameIndexBuffers.set (s.inFlight.getD (pick % s.inFlight.length) 0)
            (some b)).getD i none) = s.frameIndexBuffers.getD i none := by
      intro i hne2
      rw [List.getD_eq_getElem?_getD, List.getElem?_set, if_neg (fun h => hne2 h.symm),
        ← List.getD_eq_getElem?_getD]
    by_cases hfin : N ≤ s.completedFrameCount + 1
    · -- final frame: resolve with the fully populated results array
      rw [if_pos hfin]
      have hceq : s.completedFrameCount + 1 = N := by omega
      have hnexteq : s.nextFrameIndex = N := by omega
      have hflone : s.inFlight.length = 1 := by omega
      obtain ⟨a, hfla⟩ := List.length_eq_one.mp hflone
      have hja : s.inFlight.getD (pick % s.inFlight.length) 0 = a := by
        have hmem1 : s.inFlight.getD (pick % s.inFlight.length) 0 ∈ [a] := by
          rw [← hfla]
          exact hjmem
        exact List.mem_singleton.mp hmem1
      have hok : ∀ i, i < N → ∃ b2, g i = Except.ok b2 := by
        intro i hiN
        by_cases hij : i = s.inFlight.getD (pick % s.inFlight.length) 0
        · exact ⟨b, hij ▸ hgj⟩
        · have hinot : i ∉ s.inFlight := by
            rw [hfla]
            intro hm
            exact hij ((List.mem_singleton.mp hm).trans hja.symm)
          obtain ⟨b2, hb2, _⟩ := hbufdone i (by omega) hinot
          exact ⟨b2, hb2⟩
      refine Or.inr (Or.inr ⟨hok, ?_, hceq⟩)
      have hlists :
          s.frameIndexBuffers.set (s.inFlight.getD (pick % s.inFlight.length) 0) (some b) =
            (List.range N).map (fun i => (g i).toOption) := by
        apply List.ext_getElem
        · simp [hbuflen]
        · intro i hi1 hi2
          have hiN : i < N := by
            rw [List.length_set, hbuflen] at hi1
            exact hi1
          rw [List.getElem_map, List.getElem_range]
          by_cases hij : i = s.inFlight.getD (pick % s.inFlight.length) 0
          · subst hij
            have := hgetset_j
            rw [List.getD_eq_getElem _ none (by rw [List.length_set]; omega)] at this
            rw [this, hgj]
            rfl
          · have hinot : i ∉ s.inFlight := by
              rw [hfla]
              intro hm
              exact hij ((List.mem_singleton.mp hm).trans hja.symm)
            obtain ⟨b2, hb2, hbuf2⟩ := hbufdone i (by omega) hinot
            have := hgetset_ne i hij
            rw [List.getD_eq_getElem _ none (by rw [List.length_set]; omega)] at this
            rw [this, hbuf2, hb2]
            rfl
      rw [hlists]
    · -- not final: one more completion, invariant preserved through `schedule`
      rw [if_neg hfin]
      have hkeep2 : ∀ i, i < s.nextFrameIndex →
          i ∉ s.inFlight.eraseIdx (pick % s.inFlight.length) →
          i ≠ s.inFlight.getD (pick % s.inFlight.length) 0 →
          (∃ b2, g i = Except.ok b2 ∧
            (s.frameIndexBuffers.set (s.inFlight.getD (pick % s.inFlight.length) 0)
              (some b)).getD i none = some b2) := by
        intro i hilt hinot hij
        have hinot2 : i ∉ s.inFlight := fun hin => hinot (hkeep i hin hij)
        obtain ⟨b2, hb2, hbuf2⟩ := hbufdone i hilt hinot2
        exact ⟨b2, hb2, by rw [hgetset_ne i hij, hbuf2]⟩
      unfold _schedule
      rw [if_neg (by simp [hsettled])]
      by_cases hassign : N ≤ s.nextFrameIndex
      · rw [if_pos hassign, if_neg (by dsimp only; omega)]
        refine Or.inr (Or.inl ⟨⟨?_, hnody, ?_, ?_, ?_, ?_, ?_, hsettled, by dsimp only; omega⟩, rfl⟩)
        · dsimp only
          omega
        · intro i hi
          exact hmem i (hsub i hi)
        · dsimp only
          omega
        · dsimp only
          rw [List.length_set]
          exact hbuflen
        · intro i hilt hinot
          dsimp only at hilt hinot ⊢
          by_cases hij : i = s.inFlight.getD (pick % s.inFlight.length) 0
          · exact ⟨b, hij ▸ hgj, by rw [hij, hgetset_j]⟩
          · exact hkeep2 i hilt hinot hij
        · intro i hiN hcond
          dsimp only at hcond ⊢
          have hij : i ≠ s.inFlight.getD (pick % s.inFlight.length) 0 := by
            rcases hcond with hge | hin
            · omega
            · intro heq
              exact hj_notin (heq ▸ hin)
          rw [hgetset_ne i hij]
          refine hbufnone i hiN ?_
          rcases hcond with hge | hin
          · exact Or.inl hge
          · exact Or.inr (hsub i hin)
      · rw [if_neg hassign]
        have hWc : s.nextFrameIndex = W + s.completedFrameCount := by omega
        refine Or.inr (Or.inl ⟨⟨?_, ?_, ?_, ?_, ?_, ?_, ?_, hsettled, by dsimp only; omega⟩, rfl⟩)
        · dsimp only
          omega
        · dsimp only
          rw [List.nodup_append]
          refine ⟨hnody, List.nodup_singleton _, ?_⟩
          intro x hx hx2
          rcases List.mem_singleton.mp hx2 with rfl
          exact absurd (hmem _ (hsub _ hx)) (by omega)
        · intro i hi
          dsimp only at hi ⊢
          rcases List.mem_append.mp hi with hin | hin
          · have := hmem i (hsub i hin)
            omega
          · rcases List.mem_singleton.mp hin with rfl
            omega
        · dsimp only
          rw [List.length_append]
          simp only [List.length_singleton]
          omega
        · dsimp only
          rw [List.length_set]
          exact hbuflen
        · intro i hilt hinot
          dsimp only at hilt hinot ⊢
          have hinot1 : i ∉ s.inFlight.eraseIdx (pick % s.inFlight.length) :=
            fun hin => hinot (List.mem_append.mpr (Or.inl hin))
          have hine : i ≠ s.nextFrameIndex :=
            fun heq => hinot (List.mem_append.mpr (Or.inr (heq ▸ List.mem_singleton_self _)))
          have hilt2 : i < s.nextFrameIndex := by omega
          by_cases hij : i = s.inFlight.getD (pick % s.inFlight.length) 0
          · exact ⟨b, hij ▸ hgj, by rw [hij, hgetset_j]⟩
          · exact hkeep2 i hilt2 hinot1 hij
        · intro i hiN hcond
          dsimp only at hcond ⊢
          have hij : i ≠ s.inFlight.getD (pick % s.inFlight.length) 0 := by
            rcases hcond with hge | hin
            · omega
            · rcases List.mem_append.mp hin with hin1 | hin1
              · intro heq
                exact hj_notin (heq ▸ hin1)
              · rcases List.mem_singleton.mp hin1 with rfl
                omega
          rw [hgetset_ne i hij]
          refine hbufnone i hiN ?_
          rcases hcond with hge | hin
          · exact Or.inl (by omega)
          · rcases List.mem_append.mp hin with hin1 | hin1
            · exact Or.inr (hsub i hin1)
            · rcases List.mem_singleton.mp hin1 with rfl
              exact Or.inl (le_refl _)

lemma _poolRun_ok {ε β : Type} (g : ℕ → Except ε β) (N W : ℕ) (hW : 1 ≤ W)
    (hok : ∀ i, i < N → ∃ b, g i = Except.ok b) :
    ∀ (order : List ℕ) (s : PoolState ε β), PoolInv g N W s →
      s.completedFrameCount + order.length = N →
      (order.foldl (_completeTask g N) s).settledResult =
        some (Except.ok ((List.range N).map (fun i => (g i).toOption))) := by
  intro order
  induction order with
  | nil =>
    intro s hinv hlen
    exfalso
    have hd := hinv.hdone
    simp only [List.length_nil] at hlen
    omega
  | cons pick rest ih =>
    intro s hinv hlen
    rw [List.foldl_cons]
    rcases _completeTask_step g N W hW s hinv pick with
      ⟨e, ⟨j, hjN, hgj⟩, _⟩ | ⟨hinv2, hc⟩ | ⟨_, hres, _⟩
    · obtain ⟨b, hb⟩ := hok j hjN
      rw [hb] at hgj
      exact absurd hgj (by simp)
    · exact ih _ hinv2 (by rw [hc]; simp only [List.length_cons] at hlen; omega)
    · rw [_foldl_completeTask_settled g N rest _ (by rw [hres]; rfl)]
      exact hres

lemma _poolRun_fail {ε β : Type} (g : ℕ → Except ε β) (N W : ℕ) (hW : 1 ≤ W) :
    ∀ (order : List ℕ) (s : PoolState ε β), PoolInv g N W s →
      s.completedFrameCount + order.length = N →
      (∃ i, i < N ∧ ∃ e, g i = Except.error e) →
      ∃ e, (order.foldl (_completeTask g N) s).settledResult = some (Except.error e) ∧
        ∃ j, j < N ∧ g j = Except.error e := by
  intro order
  induction order with
  | nil =>
    intro s hinv hlen _
    exfalso
    have hd := hinv.hdone
    simp only [List.length_nil] at hlen
    omega
  | cons pick rest ih =>
    intro s hinv hlen hexe
    rw [List.foldl_cons]
    rcases _completeTask_step g N W hW s hinv pick with
      ⟨e, ⟨j, hjN, hgj⟩, hres⟩ | ⟨hinv2, hc⟩ | ⟨hallok, _, _⟩
    · refine ⟨e, ?_, j, hjN, hgj⟩
      rw [_foldl_completeTask_settled g N rest _ (by rw [hres]; rfl)]
      exact hres
    · exact ih _ hinv2 (by rw [hc]; simp only [List.length_cons] at hlen; omega) hexe
    · obtain ⟨i, hiN, e, he⟩ := hexe
      obtain ⟨b, hb⟩ := hallok i hiN
      rw [hb] at he
      exact absurd he (by simp)

lemma _poolRun_ok_only_full {ε β : Type} (g : ℕ → Except ε β) (N W : ℕ) (hW : 1 ≤ W) :
    ∀ (order : List ℕ) (s : PoolState ε β), PoolInv g N W s →
      ∀ l, (order.foldl (_completeTask g N) s).settledResult = some (Except.ok l) →
        l = (List.range N).map (fun i => (g i).toOption) := by
  intro order
  induction order with
  | nil =>
    intro s hinv l hres
    rw [List.foldl_nil, hinv.hsettled] at hres
    exact absurd hres (by simp)
  | cons pick rest ih =>
    intro s hinv l hres
    rw [List.foldl_cons] at hres
    rcases _completeTask_step g N W hW s hinv pick with
      ⟨e, _, hres2⟩ | ⟨hinv2, _⟩ | ⟨_, hres2, _⟩
    · rw [_foldl_completeTask_settled g N rest _ (by rw [hres2]; rfl), hres2] at hres
      exact absurd hres (by simp)
    · exact ih _ hinv2 l hres
    · rw [_foldl_completeTask_settled g N rest _ (by rw [hres2]; rfl), hres2] at hres
      simp only [Option.some.injEq, Except.ok.injEq] at hres
      exact hres.symm

/-- The worker lifecycle of `_encodeGifWithPaletteWorkerPool`
(`src/common/src/image.ts`): the coordinator worker (id 0) is created
first, the `try` block creates the pool workers (ids `1..W`) and runs the
quantize / apply-palette / encode body (whose outcome is a success or a
thrown error), and the `finally` block terminates the coordinator and
then every pool worker, on both paths. -/
structure WorkerPoolTeardown where
  spawnedWorkers : List ℕ
  terminatedWorkers : List ℕ

/-- `_encodeGifWithPaletteWorkerPool`'s spawn / terminate events as a
function of the body's outcome (the terminated list is produced by the
`finally` block, reached from the success exit and from every throw). -/
def _encodeGifWithPaletteWorkerPoolTeardown {ε α : Type}
    (applyPaletteWorkerCount : ℕ) (bodyOutcome : Except ε α) : WorkerPoolTeardown :=
  { spawnedWorkers := 0 :: List.range' 1 applyPaletteWorkerCount
    terminatedWorkers :=
      match bodyOutcome with
      | Except.ok _ => 0 :: List.range' 1 applyPaletteWorkerCount
      | Except.error _ => 0 :: List.range' 1 applyPaletteWorkerCount }

/-- C1: for every input of `N` frame buffers (palette application
abstracted as `f`), every pool of `W` workers with `W < N`, and every
order in which worker completions arrive, `_applyPaletteInWorkerPool`
resolves with an indexed-frame array of length `N` whose entry at
position `i` is the palette-application result for input frame `i`
(presentation order, not completion order). -/
theorem applyPaletteInWorkerPool_ordered {ε β : Type} (f : ℕ → β) (N W : ℕ)
    (order : List ℕ) (hW : 1 ≤ W) (hWN : W < N) (horder : order.length = N) :
    (_applyPaletteInWorkerPool (fun i => (Except.ok (f i) : Except ε β)) N W
        order).settledResult =
      some (Except.ok ((List.range N).map (fun i => some (f i)))) ∧
      ((List.range N).map (fun i => (some (f i) : Option β))).length = N := by
  constructor
  · have hN : 1 ≤ N := by omega
    have h := _poolRun_ok (fun i => (Except.ok (f i) : Except ε β)) N W hW
      (fun i _ => ⟨f i, rfl⟩) order (_initPool ε β N W)
      (_initPool_inv _ N W hN)
      (by rw [_initPool_eq ε β N hN W]; dsimp only; omega)
    unfold _applyPaletteInWorkerPool
    exact h
  · simp

/-- C1 witness: 3 frames, 2 workers, an adversarial completion order;
the resolved array is `[some (f 0), some (f 1), some (f 2)]`. -/
theorem applyPaletteInWorkerPool_ordered_witness :
    (_applyPaletteInWorkerPool (fun i => (Except.ok (i * 10) : Except String ℕ)) 3 2
        [5, 0, 3]).settledResult = some (Except.ok [some 0, some 10, some 20]) := by
  have h := (applyPaletteInWorkerPool_ordered (ε := String) (fun i => i * 10) 3 2 [5, 0, 3]
    (by decide) (by decide) (by decide)).1
  rw [h]
  simp [List.range_succ]

/-- C4: with per-task outcomes `g` (an `error` models a worker error
response or crash), any failing task makes the whole pool run settle with
exactly one rejection, whose error is one of the task errors; a resolved
array is never partial (it always carries every frame's own successful
result); once settled, a completion event leaves the pool state
untouched — in particular no new task is ever scheduled; and the
enclosing `_encodeGifWithPaletteWorkerPool` terminates the coordinator
and every pool worker whether its body succeeds or fails. -/
theorem applyPaletteInWorkerPool_failure {ε β : Type} (g : ℕ → Except ε β) (N W : ℕ)
    (order : List ℕ) (hW : 1 ≤ W) (hN : 1 ≤ N) (horder : order.length = N) :
    ((∃ i, i < N ∧ ∃ e, g i = Except.error e) →
        ∃ e, (_applyPaletteInWorkerPool g N W order).settledResult =
            some (Except.error e) ∧ ∃ j, j < N ∧ g j = Except.error e) ∧
      (∀ l, (_applyPaletteInWorkerPool g N W order).settledResult = some (Except.ok l) →
        l = (List.range N).map (fun i => (g i).toOption)) ∧
      (∀ (s : PoolState ε β) (pick : ℕ), s.settledResult.isSome = true →
        _completeTask g N s pick = s) ∧
      (∀ bodyOutcome : Except ε Unit,
        (_encodeGifWithPaletteWorkerPoolTeardown W bodyOutcome).terminatedWorkers =
          (_encodeGifWithPaletteWorkerPoolTeardown W bodyOutcome).spawnedWorkers) := by
  refine ⟨?_, ?_, ?_, ?_⟩
  · intro hexe
    exact _poolRun_fail g N W hW order _ (_initPool_inv g N W hN)
      (by rw [_initPool_eq ε β N hN W]; dsimp only; omega) hexe
  · intro l hres
    exact _poolRun_ok_only_full g N W hW order _ (_initPool_inv g N W hN) l hres
  · exact fun s pick h => _completeTask_settled g N s pick h
  · intro bodyOutcome
    cases bodyOutcome <;> rfl

/-- C4 witness: 3 frames, 2 workers, frame 1 fails; the pool rejects with
one of the task errors. -/
theorem applyPaletteInWorkerPool_failure_witness :
    ∃ e, (_applyPaletteInWorkerPool
        (fun i => if i = 1 then (Except.error "boom" : Except String ℕ) else Except.ok i)
        3 2 [0, 0, 0]).settledResult = some (Except.error e) ∧
      ∃ j, j < 3 ∧
        (fun i => if i = 1 then (Except.error "boom" : Except String ℕ) else Except.ok i) j =
          Except.error e := by
  exact (applyPaletteInWorkerPool_failure
      (fun i => if i = 1 then (Except.error "boom" : Except String ℕ) else Except.ok i)
      3 2 [0, 0, 0] (by decide) (by decide) (by decide)).1
    ⟨1, by decide, "boom", rfl⟩

/-! ## Render cancellation (`GifFileImageData.atTimestamp` / `dispose`,
`src/common/src/image.ts`)

The promise lifecycle of `_blobPromise` / `_blobPromiseReject` is
embedded as an explicit state: calling the stored rejector transitions a
*pending* promise to rejected; on an absent or already-settled promise it
is a no-op (JavaScript promises settle at most once). -/

/-- `DEFAULT_GIF_DURATION_MS` -/
def DEFAULT_GIF_DURATION_MS : ℚ := 1500

/-- The errors a `GifFileImageData` blob promise can reject with:
`CancelledImageDataRenderingError` (a dedicated `Error` subclass used
only for cancellation) is a distinct type from the ordinary `Error`s
carrying failure messages. -/
inductive ImageRenderError where
  | cancelledImageDataRendering
  | renderFailure (message : String)
deriving DecidableEq

/-- The lifecycle of a `GifFileImageData`'s `_blobPromise`:
not yet created, in flight (`_blobPromiseReject` stored), resolved with a
cached blob, or rejected with an error. -/
inductive BlobPromiseState where
  | noPromise
  | pending
  | resolved
  | rejected (e : ImageRenderError)
deriving DecidableEq

/-- The cancellation-relevant state of one `GifFileImageData` object. -/
structure GifFileImageDataState where
  startTimestamp : ℚ
  durationMs : ℚ
  maxDurationMs : ℚ
  blobPromise : BlobPromiseState

/-- `durationFromInterval` from `src/common/src/image.ts`. -/
def durationFromInterval (startTimestamp endTimestamp maxDurationMs : ℚ) : ℚ :=
  let duration := |endTimestamp - startTimestamp|
  let resolvedDuration := if 0 < duration then duration else DEFAULT_GIF_DURATION_MS
  clamp resolvedDuration ((GIF_OPTION_LIMITS.minDurationMs : ℤ) : ℚ) maxDurationMs

/-- `this._blobPromiseReject?.(new CancelledImageDataRenderingError())`:
only a pending promise transitions; rejecting an absent or settled
promise is a no-op. -/
def _rejectWithCancellation : BlobPromiseState → BlobPromiseState
  | BlobPromiseState.pending =>
      BlobPromiseState.rejected ImageRenderError.cancelledImageDataRendering
  | other => other

/-- `GifFileImageData.atTimestamp` from `src/common/src/image.ts`: the
same timestamp returns `this` with nothing new; a different timestamp
rejects the in-flight promise (if any) with
`CancelledImageDataRenderingError` and constructs a fresh
`GifFileImageData` for `[timestamp, timestamp + durationMs]` whose
promise state is empty.  Returns (the original object's state after the
call, the freshly created object when one was created). -/
def atTimestamp (s : GifFileImageDataState) (timestamp : ℚ) :
    GifFileImageDataState × Option GifFileImageDataState :=
  if timestamp = s.startTimestamp then (s, none)
  else
    ({ s with blobPromise := _rejectWithCancellation s.blobPromise },
      some { startTimestamp := Max.max 0 timestamp,
             durationMs :=
               durationFromInterval timestamp (timestamp + s.durationMs) s.maxDurationMs,
             maxDurationMs := s.maxDurationMs,
             blobPromise := BlobPromiseState.noPromise })

/-- `GifFileImageData.dispose` from `src/common/src/image.ts` (the video
and canvas teardown is outside this model). -/
def dispose (s : GifFileImageDataState) : GifFileImageDataState :=
  { s with blobPromise := _rejectWithCancellation s.blobPromise }

/-- C6: requesting a different timestamp while a render is in flight
rejects the in-flight promise with the dedicated
`CancelledImageDataRenderingError` — a type distinct from the errors that
carry real failures — and creates a fresh independent render object for
the new timestamp with no promise state; disposing does the same
rejection; and requesting the *same* timestamp keeps the object and its
in-flight promise untouched. -/
theorem atTimestamp_cancellation (s : GifFileImageDataState) (timestamp : ℚ)
    (hpending : s.blobPromise = BlobPromiseState.pending)
    (hne : timestamp ≠ s.startTimestamp) :
    ((atTimestamp s timestamp).1.blobPromise =
        BlobPromiseState.rejected ImageRenderError.cancelledImageDataRendering) ∧
      (∀ m : String,
        ImageRenderError.cancelledImageDataRendering ≠ ImageRenderError.renderFailure m) ∧
      (∃ fresh, (atTimestamp s timestamp).2 = some fresh ∧
        fresh.startTimestamp = Max.max 0 timestamp ∧
        fresh.blobPromise = BlobPromiseState.noPromise) ∧
      ((dispose s).blobPromise =
        BlobPromiseState.rejected ImageRenderError.cancelledImageDataRendering) ∧
      atTimestamp s s.startTimestamp = (s, none) := by
  have hrej : _rejectWithCancellation s.blobPromise =
      BlobPromiseState.rejected ImageRenderError.cancelledImageDataRendering := by
    rw [hpending]
    rfl
  refine ⟨?_, ?_, ?_, ?_, ?_⟩
  · unfold atTimestamp
    rw [if_neg hne]
    exact hrej
  · intro m h
    cases h
  · unfold atTimestamp
    rw [if_neg hne]
    exact ⟨_, rfl, rfl, rfl⟩
  · unfold dispose
    rw [hrej]
  · unfold atTimestamp
    rw [if_pos rfl]

/-- C6 witness: an in-flight render at 100 ms, re-requested at 200 ms. -/
theorem atTimestamp_cancellation_witness :
    ((atTimestamp
        { startTimestamp := 100, durationMs := 1500, maxDurationMs := 2500,
          blobPromise := BlobPromiseState.pending } 200).1.blobPromise =
      BlobPromiseState.rejected ImageRenderError.cancelledImageDataRendering) ∧
      (∃ fresh, (atTimestamp
          { startTimestamp := 100, durationMs := 1500, maxDurationMs := 2500,
            blobPromise := BlobPromiseState.pending } 200).2 = some fresh ∧
        fresh.blobPromise = BlobPromiseState.noPromise) := by
  have h := atTimestamp_cancellation
    { startTimestamp := 100, durationMs := 1500, maxDurationMs := 2500,
      blobPromise := BlobPromiseState.pending } 200 rfl (by norm_num)
  refine ⟨h.1, ?_⟩
  obtain ⟨fresh, hf1, _, hf3⟩ := h.2.2.1
  exact ⟨fresh, hf1, hf3⟩

/-! ## Encoder worker protocol (`onMessage`,
`src/common/src/gif-encoder-worker.ts`)

The worker-side encoding routines from the `gifenc` library and the
`OffscreenCanvas` JPEG path are external; they are abstracted as
operations that either return a result or throw a message.  One incoming
`MessageEvent` produces the list of `postMessage` calls of its handler
run. -/

/-- A request message to the encoder worker, by command tag; payloads
(dimensions, buffers, palette options) are abstracted as `A`.
`applyPalette` carries its `frameIndex`, which the response echoes.
`unknownCommand` stands for a message whose tag is none of the five
known commands. -/
inductive GifEncoderRequestMessage (A : Type) where
  | encode (payload : A)
  | quantizePalette (payload : A)
  | applyPalette (frameIndex : ℕ) (payload : A)
  | encodeIndexedGif (payload : A)
  | encodeJpeg (payload : A)
  | unknownCommand (tag : String)

/-- A response message from the encoder worker; `B` abstracts encoded
byte buffers and index buffers, `P` abstracts palettes. -/
inductive GifEncoderResponseMessage (B P : Type) where
  | encoded (buffer : B)
  | quantizedPalette (palette : P)
  | appliedPalette (frameIndex : ℕ) (buffer : B)
  | encodedJpeg (buffer : B)
  | error (message : String)

/-- The worker's encoding routines (`encodeGif`, `quantizePalette`,
`applyPaletteToFrame`, `encodeIndexedGif`, `encodeJpeg`): each either
produces a result or throws with a message (for example `encodeJpeg`
throws when `OffscreenCanvas` is unavailable). -/
structure GifEncoderWorkerOps (A B P : Type) where
  encodeGif : A → Except String B
  quantizePalette : A → Except String P
  applyPaletteToFrame : A → Except String B
  encodeIndexedGif : A → Except String B
  encodeJpeg : A → Except String B

/-- `onMessage` from `src/common/src/gif-encoder-worker.ts`: the handler
body is wrapped in `try`/`catch`; each known command posts exactly one
success response with its matching tag and returns, an unknown tag
throws, and the `catch` posts exactly one `error` response carrying the
thrown message. -/
def onMessage {A B P : Type} (ops : GifEncoderWorkerOps A B P)
    (message : GifEncoderRequestMessage A) : List (GifEncoderResponseMessage B P) :=
  match message with
  | GifEncoderRequestMessage.encode p =>
    match ops.encodeGif p with
    | Except.ok bytes => [GifEncoderResponseMessage.encoded bytes]
    | Except.error e => [GifEncoderResponseMessage.error e]
  | GifEncoderRequestMessage.quantizePalette p =>
    match ops.quantizePalette p with
    | Except.ok palette => [GifEncoderResponseMessage.quantizedPalette palette]
    | Except.error e => [GifEncoderResponseMessage.error e]
  | GifEncoderRequestMessage.applyPalette frameIndex p =>
    match ops.applyPaletteToFrame p with
    | Except.ok buffer => [GifEncoderResponseMessage.appliedPalette frameIndex buffer]
    | Except.error e => [GifEncoderResponseMessage.error e]
  | GifEncoderRequestMessage.encodeIndexedGif p =>
    match ops.encodeIndexedGif p with
    | Except.ok bytes => [GifEncoderResponseMessage.encoded bytes]
    | Except.error e => [GifEncoderResponseMessage.error e]
  | GifEncoderRequestMessage.encodeJpeg p =>
    match ops.encodeJpeg p with
    | Except.ok bytes => [GifEncoderResponseMessage.encodedJpeg bytes]
    | Except.error e => [GifEncoderResponseMessage.error e]
  | GifEncoderRequestMessage.unknownCommand tag =>
    [GifEncoderResponseMessage.error ("Unknown worker command: " ++ tag)]

/-- The protocol's request/response tag pairing (`encode` and
`encodeIndexedGif` ⇒ `encoded`, `quantizePalette` ⇒ `quantizedPalette`,
`applyPalette i` ⇒ `appliedPalette i` with the index echoed,
`encodeJpeg` ⇒ `encodedJpeg`). -/
def _matchingSuccessResponse {A B P : Type} :
    GifEncoderRequestMessage A → GifEncoderResponseMessage B P → Prop
  | GifEncoderRequestMessage.encode _, GifEncoderResponseMessage.encoded _ => True
  | GifEncoderRequestMessage.quantizePalette _,
      GifEncoderResponseMessage.quantizedPalette _ => True
  | GifEncoderRequestMessage.applyPalette i _,
      GifEncoderResponseMessage.appliedPalette i2 _ => i = i2
  | GifEncoderRequestMessage.encodeIndexedGif _, GifEncoderResponseMessage.encoded _ => True
  | GifEncoderRequestMessage.encodeJpeg _, GifEncoderResponseMessage.encodedJpeg _ => True
  | _, _ => False

/-- The message the handler's `try` block throws for a request, if any:
the operation's own thrown message, or the unknown-command message. -/
def _requestThrownMessage {A B P : Type} (ops : GifEncoderWorkerOps A B P) :
    GifEncoderRequestMessage A → Option String
  | GifEncoderRequestMessage.encode p =>
    match ops.encodeGif p with
    | Except.ok _ => none
    | Except.error e => some e
  | GifEncoderRequestMessage.quantizePalette p =>
    match ops.quantizePalette p with
    | Except.ok _ => none
    | Except.error e => some e
  | GifEncoderRequestMessage.applyPalette _ p =>
    match ops.applyPaletteToFrame p with
    | Except.ok _ => none
    | Except.error e => some e
  | GifEncoderRequestMessage.encodeIndexedGif p =>
    match ops.encodeIndexedGif p with
    | Except.ok _ => none
    | Except.error e => some e
  | GifEncoderRequestMessage.encodeJpeg p =>
    match ops.encodeJpeg p with
    | Except.ok _ => none
    | Except.error e => some e
  | GifEncoderRequestMessage.unknownCommand tag =>
    some ("Unknown worker command: " ++ tag)

/-- C7: every request — any of the five command tags or an unknown one —
produces exactly one response; when nothing fails it is the success
response with the matching tag (the `applyPalette` index echoed), and
whenever anything fails (an operation throws or the tag is unknown) it is
an `error` response carrying the thrown message string — no exception
crosses the worker boundary without a tagged error response. -/
theorem onMessage_one_tagged_response {A B P : Type} (ops : GifEncoderWorkerOps A B P)
    (message : GifEncoderRequestMessage A) :
    (onMessage (B := B) (P := P) ops message).length = 1 ∧
      (_requestThrownMessage (B := B) (P := P) ops message = none →
        ∀ r ∈ onMessage (B := B) (P := P) ops message, _matchingSuccessResponse message r) ∧
      (∀ e, _requestThrownMessage (B := B) (P := P) ops message = some e →
        onMessage (B := B) (P := P) ops message = [GifEncoderResponseMessage.error e]) := by
  cases message with
  | encode p =>
    cases h : ops.encodeGif p with
    | ok bytes =>
      refine ⟨by simp [onMessage, h], ?_, ?_⟩
      · intro _ r hr
        rcases List.mem_singleton.mp (by simpa [onMessage, h] using hr) with rfl
        exact trivial
      · intro e he
        simp [_requestThrownMessage, h] at he
    | error e2 =>
      refine ⟨by simp [onMessage, h], ?_, ?_⟩
      · intro hnone
        simp [_requestThrownMessage, h] at hnone
      · intro e he
        simp only [_requestThrownMessage, h, Option.some.injEq] at he
        simp [onMessage, h, he]
  | quantizePalette p =>
    cases h : ops.quantizePalette p with
    | ok palette =>
      refine ⟨by simp [onMessage, h], ?_, ?_⟩
      · intro _ r hr
        rcases List.mem_singleton.mp (by simpa [onMessage, h] using hr) with rfl
        exact trivial
      · intro e he
        simp [_requestThrownMessage, h] at he
    | error e2 =>
      refine ⟨by simp [onMessage, h], ?_, ?_⟩
      · intro hnone
        simp [_requestThrownMessage, h] at hnone
      · intro e he
        simp only [_requestThrownMessage, h, Option.some.injEq] at he
        simp [onMessage, h, he]
  | applyPalette frameIndex p =>
    cases h : ops.applyPaletteToFrame p with
    | ok buffer =>
      refine ⟨by simp [onMessage, h], ?_, ?_⟩
      · intro _ r hr
        rcases List.mem_singleton.mp (by simpa [onMessage, h] using hr) with rfl
        exact rfl
      · intro e he
        simp [_requestThrownMessage, h] at he
    | error e2 =>
      refine ⟨by simp [onMessage, h], ?_, ?_⟩
      · intro hnone
        simp [_requestThrownMessage, h] at hnone
      · intro e he
        simp only [_requestThrownMessage, h, Option.some.injEq] at he
        simp [onMessage, h, he]
  | encodeIndexedGif p =>
    cases h : ops.encodeIndexedGif p with
    | ok bytes =>
      refine ⟨by simp [onMessage, h], ?_, ?_⟩
      · intro _ r hr
        rcases List.mem_singleton.mp (by simpa [onMessage, h] using hr) with rfl
        exact trivial
      · intro e he
        simp [_requestThrownMessage, h] at he
    | error e2 =>
      refine ⟨by simp [onMessage, h], ?_, ?_⟩
      · intro hnone
        simp [_requestThrownMessage, h] at hnone
      · intro e he
        simp only [_requestThrownMessage, h, Option.some.injEq] at he
        simp [onMessage, h, he]
  | encodeJpeg p =>
    cases h : ops.encodeJpeg p with
    | ok bytes =>
      refine ⟨by simp [onMessage, h], ?_, ?_⟩
      · intro _ r hr
        rcases List.mem_singleton.mp (by simpa [onMessage, h] using hr) with rfl
        exact trivial
      · intro e he
        simp [_requestThrownMessage, h] at he
    | error e2 =>
      refine ⟨by simp [onMessage, h], ?_, ?_⟩
      · intro hnone
        simp [_requestThrownMessage, h] at hnone
      · intro e he
        simp only [_requestThrownMessage, h, Option.some.injEq] at he
        simp [onMessage, h, he]
  | unknownCommand tag =>
    refine ⟨rfl, ?_, ?_⟩
    · intro hnone
      simp [_requestThrownMessage] at hnone
    · intro e he
      simp only [_requestThrownMessage, Option.some.injEq] at he
      simp [onMessage, he]

/-- C7 witness: a concrete operation table in which the JPEG encoder
throws (no `OffscreenCanvas`): `applyPalette` echoes its frame index in a
single success response, and `encodeJpeg` yields the single tagged error
response. -/
theorem onMessage_one_tagged_response_witness :
    (onMessage
        { encodeGif := fun _ => Except.ok 1, quantizePalette := fun _ => Except.ok 2,
          applyPaletteToFrame := fun _ => Except.ok 3, encodeIndexedGif := fun _ => Except.ok 4,
          encodeJpeg := fun _ =>
            (Except.error "OffscreenCanvas is not available for worker JPEG encoding" :
              Except String ℕ) }
        (GifEncoderRequestMessage.applyPalette 7 (0 : ℕ))).length = 1 ∧
      onMessage (P := ℕ)
        { encodeGif := fun _ => Except.ok 1, quantizePalette := fun _ => Except.ok 2,
          applyPaletteToFrame := fun _ => Except.ok 3, encodeIndexedGif := fun _ => Except.ok 4,
          encodeJpeg := fun _ =>
            (Except.error "OffscreenCanvas is not available for worker JPEG encoding" :
              Except String ℕ) }
        (GifEncoderRequestMessage.encodeJpeg (0 : ℕ)) =
        [GifEncoderResponseMessage.error
          "OffscreenCanvas is not available for worker JPEG encoding"] := by
  exact ⟨(onMessage_one_tagged_response _ _).1, (onMessage_one_tagged_response _ _).2.2 _ rfl⟩

/-- C9 witness: the amended statement evaluated at 20 frames with
`hardwareConcurrency = 8` (pool of 4) and `hardwareConcurrency = 2`
(single worker), and at 5 frames (single worker). -/
theorem applyPaletteWorkerCount_spec_witness :
    _applyPaletteWorkerCount 20 (some 8) = 4 ∧
      _applyPaletteWorkerCount 20 (some 2) = 1 ∧
      _applyPaletteWorkerCount 5 (some 8) = 1 := by
  refine ⟨?_, ?_, ?_⟩
  · have h := ((applyPaletteWorkerCount_spec 20 8).2.1 (by decide) (by decide))
    rw [h]; decide
  · exact (applyPaletteWorkerCount_spec 20 2).2.2.1 (by decide) (by decide)
  · exact (applyPaletteWorkerCount_spec 5 8).1 (by decide) (some 8)

end Asb
